import Mathlib

/-!
Formal model of the `bazel_to_cmake` workspace state and the `local_mirror`
rule lowering, translated from:
  * `tools/cmake/bazel_to_cmake/workspace.py`
  * `tools/cmake/bazel_to_cmake/bzl_library/local_mirror.py`

Python dictionaries are modelled as association lists (`List (κ × ν)`) with
key-overwriting insertion, Python sets as duplicate-free-by-insertion lists,
and the filesystem / generated-script side effects of the mirror-rule lowering
as an ordered trace of effect events.  All definitions are executable.
-/

namespace BazelToCmake

/-! ### Association-list dictionaries and sets -/

/-- Lookup in a Python-dict model: the first binding of the key. -/
def dictGet {α β : Type} [DecidableEq α] (m : List (α × β)) (k : α) : Option β :=
  match m with
  | [] => none
  | p :: rest => if p.1 = k then some p.2 else dictGet rest k

/-- `m[k] = v` on a Python-dict model: overwrite the existing binding in place,
or append a new binding. -/
def dictSet {α β : Type} [DecidableEq α] (m : List (α × β)) (k : α) (v : β) :
    List (α × β) :=
  match m with
  | [] => [(k, v)]
  | p :: rest => if p.1 = k then (k, v) :: rest else p :: dictSet rest k v

/-- `del m[k]` on a Python-dict model. -/
def eraseKey {α β : Type} [DecidableEq α] (m : List (α × β)) (k : α) :
    List (α × β) :=
  m.filter (fun p => ¬(p.1 = k))

/-- `s.add(x)` on a Python-set model. -/
def insertSet {α : Type} [DecidableEq α] (s : List α) (x : α) : List α :=
  if x ∈ s then s else s ++ [x]

/-! ### Kernel-friendly string helpers -/

/-- `s.startswith(p)` (also models an anchored `re.match` on a literal). -/
def strStartsWith (s p : String) : Bool :=
  p.data.isPrefixOf s.data

/-- Drop the first `n` characters of a string. -/
def strDrop (s : String) (n : Nat) : String :=
  ⟨s.data.drop n⟩

/-- Python truthiness of a string: empty strings are falsy. -/
def strIsEmpty (s : String) : Bool :=
  s.data.isEmpty

/-- `os.path.join` for the always-relative second components used here. -/
def pathJoin (a b : String) : String :=
  a ++ "/" ++ b

/-- `pathlib.Path(p).parent` for the slash-joined paths used here: everything
before the final `/`. -/
def parentDirStr (s : String) : String :=
  ⟨((s.data.reverse.dropWhile (fun c => ¬(c = '/'))).drop 1).reverse⟩

/-- ASCII lower-casing of one character, as `str.lower` does on the
project-name strings used here. -/
def charLower (c : Char) : Char :=
  if 'A' ≤ c ∧ c ≤ 'Z' then Char.ofNat (c.toNat + 32) else c

/-- ASCII upper-casing of one character, as `str.upper` does on the
project-name strings used here. -/
def charUpper (c : Char) : Char :=
  if 'a' ≤ c ∧ c ≤ 'z' then Char.ofNat (c.toNat - 32) else c

/-- `s.lower()` for ASCII project names. -/
def strLower (s : String) : String :=
  ⟨s.data.map charLower⟩

/-- `s.upper()` for ASCII project names. -/
def strUpper (s : String) : String :=
  ⟨s.data.map charUpper⟩

/-- Split a character list at the first occurrence of a pattern, returning the
part before it and the part after it. -/
def findSplit (pat : List Char) : List Char → Option (List Char × List Char)
  | [] => if pat.isEmpty then some ([], []) else none
  | c :: cs =>
    if pat.isPrefixOf (c :: cs) then some ([], (c :: cs).drop pat.length)
    else
      match findSplit pat cs with
      | some (pre, post) => some (c :: pre, post)
      | none => none

/-- Whether a pattern occurs as a contiguous sublist. -/
def containsSub (pat l : List Char) : Bool :=
  (findSplit pat l).isSome

/-- `str(pathlib.PurePath(p).as_posix())` on the POSIX-style directory strings
used here: collapse repeated separators and drop a trailing separator,
preserving whether the path is absolute. -/
def as_posix (s : String) : String :=
  let comps := (s.data.splitOnP (fun c => c = '/')).filter (fun c => ¬c.isEmpty)
  let body := String.intercalate "/" (comps.map (fun c => (⟨c⟩ : String)))
  if strStartsWith s "/" then "/" ++ body else body

/-! ### Identifiers, providers, target info (`starlark/bazel_target.py`,
`starlark/provider.py`; value semantics per spec §3/§4.3).  A `RepositoryId`
is modelled as its repository-name string. -/

/-- A Bazel target identity: (repository id, package path, name). -/
structure TargetId where
  repository_id : String
  package_name : String
  target_name : String
deriving DecidableEq

/-- The two provider kinds in scope (`cmake_target.py`): the generated
build-target-name list and the find-package-name list. -/
inductive Provider where
  | CMakeDepsProvider (targets : List String)
  | CMakePackageDepsProvider (packages : List String)
deriving DecidableEq

/-- Immutable ordered collection of providers captured at analysis time. -/
structure TargetInfo where
  providers : List Provider
deriving DecidableEq

/-- Modelled from the spec: `parse_absolute_target` lives in
`starlark/bazel_target.py`, which is not part of the given sources.  Per spec
§3 a `TargetId` has the canonical absolute string form `@repo//package:name`;
this parser accepts exactly that shape (splitting at the first `//` and the
first `:`, rejecting a second `//` or a `:` inside the target name) and
returns `none` when the string cannot be parsed to an absolute target. -/
def parse_absolute_target (s : String) : Option TargetId :=
  match s.data with
  | '@' :: rest =>
    match findSplit ['/', '/'] rest with
    | some (repo, pkgname) =>
      match findSplit [':'] pkgname with
      | some (pkg, nm) =>
        if containsSub ['/', '/'] pkgname || containsSub [':'] nm then none
        else some ⟨⟨repo⟩, ⟨pkg⟩, ⟨nm⟩⟩
      | none => none
    | none => none
  | _ => none

/-! ### Repository and Workspace (`workspace.py`) -/

/-- One Bazel repository bound to one generated CMake project
(`workspace.py`, class `Repository`).  The back-reference to the owning
workspace is not stored; registration happens in `repositoryInit`. -/
structure Repository where
  repository_id : String
  cmake_project_name : String
  cmake_binary_dir : String
  source_directory : String
  repo_mapping : List (String × String)
  top_level : Bool
deriving DecidableEq

/-- Maps `platform.system()` values to Bazel host platform names
(`_PLATFORM_NAME_TO_BAZEL_PLATFORM`). -/
def platformNameToBazelPlatform : List (String × String) :=
  [("Windows", "windows"), ("FreeBSD", "freebsd"), ("OpenBSD", "openbsd"),
   ("Darwin", "macos"), ("Linux", "linux")]

/-- Relevant state of the entire Bazel workspace (`workspace.py`, class
`Workspace`).  `analyzed_targets` models `_analyzed_targets`. -/
structure Workspace where
  cmake_vars : List (String × String)
  save_workspace : Option String
  bazel_to_cmake_deps : List (String × String)
  repos : List (String × Repository)
  repo_cmake_packages : List String
  host_platform_name : Option String
  values : List (String × String)
  copts : List String
  cxxopts : List String
  cdefines : List String
  ignored_libraries : List TargetId
  modules : List String
  analyzed_targets : List (TargetId × TargetInfo)
deriving DecidableEq

/-- `Workspace.__init__`.  `system_name` is the ambient `platform.system()`
value. -/
def workspaceInit (system_name : String) (cmake_vars : List (String × String))
    (save_workspace : Option String) : Workspace where
  cmake_vars := cmake_vars
  save_workspace := save_workspace
  bazel_to_cmake_deps := []
  repos := []
  repo_cmake_packages := []
  host_platform_name := dictGet platformNameToBazelPlatform system_name
  values := []
  copts := []
  cxxopts := []
  cdefines := []
  ignored_libraries := []
  modules := []
  analyzed_targets := []

/-- A `Union[str, TargetId]` argument. -/
inductive BazelTargetRef where
  | byId (t : TargetId)
  | byString (s : String)

/-- `Workspace.set_bazel_target_mapping` (the spec's
`record_target_mapping`): resolve the target to a `TargetId` (parsing the
string form; a parse failure is the InvalidArgument failure), then store a
fresh `TargetInfo` holding a `CMakeDepsProvider` for a supplied CMake target
and/or a `CMakePackageDepsProvider` for a supplied CMake package. -/
def set_bazel_target_mapping (w : Workspace) (target : BazelTargetRef)
    (cmake_target : Option String) (cmake_package : Option String) :
    Except String Workspace :=
  let tid? : Option TargetId :=
    match target with
    | .byId t => some t
    | .byString s => parse_absolute_target s
  match tid? with
  | none => .error "InvalidArgument"
  | some t =>
    let providers : List Provider :=
      (match cmake_target with
       | some ct => [Provider.CMakeDepsProvider [ct]]
       | none => []) ++
      (match cmake_package with
       | some cp => [Provider.CMakePackageDepsProvider [cp]]
       | none => [])
    .ok { w with analyzed_targets := dictSet w.analyzed_targets t ⟨providers⟩ }

/-- `Workspace.ignore_library`. -/
def ignore_library (w : Workspace) (target : TargetId) : Workspace :=
  { w with ignored_libraries := insertSet w.ignored_libraries target }

/-- `Workspace.exclude_repo_targets`: collect the cached targets whose
repository id matches, then delete each of them. -/
def exclude_repo_targets (w : Workspace) (repository_id : String) : Workspace :=
  let targets_to_delete :=
    (w.analyzed_targets.map Prod.fst).filter
      (fun t => t.repository_id = repository_id)
  { w with
    analyzed_targets :=
      targets_to_delete.foldl (fun m t => eraseKey m t) w.analyzed_targets }

/-- `Repository.__init__`: normalize both directories, register under the own
id and (for the top-level repository) also under the empty id, and record the
project name.  `none` models the `assert bazel_repo_name` programmer-error
assertion firing on an empty name (the `assert workspace` assertion cannot
fire here since a workspace value is always supplied). -/
def repositoryInit (w : Workspace) (bazel_repo_name : String)
    (cmake_project_name : String) (cmake_binary_dir : String)
    (source_directory : String) (top_level : Bool) : Option Workspace :=
  if strIsEmpty bazel_repo_name then none
  else
    let repo : Repository :=
      ⟨bazel_repo_name, cmake_project_name, as_posix cmake_binary_dir,
       as_posix source_directory, [], top_level⟩
    let repos1 := dictSet w.repos bazel_repo_name repo
    let repos2 := if top_level then dictSet repos1 "" repo else repos1
    some { w with
      repos := repos2,
      repo_cmake_packages := insertSet w.repo_cmake_packages cmake_project_name }

/-! ### Option ingestion (`Workspace.add_bazelrc`) -/

/-- The anchored filter regex of `filter_copts` (alternatives `-std`, `/std`,
`-fdiagnostics-color=`, `-D`, `/D`), written out as the five literal-prefix
tests; `re.match` anchors at the start of the string. -/
def coptFilterMatch (opt : String) : Bool :=
  strStartsWith opt "-std" || strStartsWith opt "/std" ||
    strStartsWith opt "-fdiagnostics-color=" ||
    strStartsWith opt "-D" || strStartsWith opt "/D"

/-- `filter_copts` from `Workspace.add_bazelrc`. -/
def filter_copts (opts : List String) : List String :=
  opts.filter (fun opt => coptFilterMatch opt = false)

/-- `argparse.parse_known_args` restricted to the three registered options
`--copt`, `--cxxopt`, `--define`, each with `action="append"`: both the
`--flag=value` and the `--flag value` forms append in order of appearance,
unknown tokens are collected (ignored) rather than errors, and a flag missing
its argument (including a following token that itself starts with `-`) is a
parse error, which `argparse` turns into a fatal `SystemExit`.  Option-name
abbreviation and the negative-number special case of `argparse` are outside
the model; no claim touches them. -/
def parseKnownArgs :
    List String → Except String (List String × List String × List String)
  | [] => .ok ([], [], [])
  | t :: rest =>
    if strStartsWith t "--copt=" then
      (parseKnownArgs rest).map (fun r => (strDrop t 7 :: r.1, r.2.1, r.2.2))
    else if t = "--copt" then
      match rest with
      | v :: rest2 =>
        if strStartsWith v "-" then .error "argument --copt: expected one argument"
        else (parseKnownArgs rest2).map (fun r => (v :: r.1, r.2.1, r.2.2))
      | [] => .error "argument --copt: expected one argument"
    else if strStartsWith t "--cxxopt=" then
      (parseKnownArgs rest).map (fun r => (r.1, strDrop t 9 :: r.2.1, r.2.2))
    else if t = "--cxxopt" then
      match rest with
      | v :: rest2 =>
        if strStartsWith v "-" then .error "argument --cxxopt: expected one argument"
        else (parseKnownArgs rest2).map (fun r => (r.1, v :: r.2.1, r.2.2))
      | [] => .error "argument --cxxopt: expected one argument"
    else if strStartsWith t "--define=" then
      (parseKnownArgs rest).map (fun r => (r.1, r.2.1, strDrop t 9 :: r.2.2))
    else if t = "--define" then
      match rest with
      | v :: rest2 =>
        if strStartsWith v "-" then .error "argument --define: expected one argument"
        else (parseKnownArgs rest2).map (fun r => (r.1, r.2.1, v :: r.2.2))
      | [] => .error "argument --define: expected one argument"
    else parseKnownArgs rest

/-- `self.values.update(("define", x) for x in args.define)` on the
set-of-pairs model. -/
def insertDefines (vs : List (String × String)) (defines : List String) :
    List (String × String) :=
  defines.foldl (fun acc x => insertSet acc ("define", x)) vs

/-- `Workspace.add_bazelrc`: gather the `build` group and the
`build:<host-platform>` group, parse the recognized flags, union the
`--define` pairs into the set and append the filtered `--copt`/`--cxxopt`
values to the ordered lists.  A parse error models the `SystemExit` that
`argparse` raises before any workspace field is mutated. -/
def add_bazelrc (w : Workspace) (options : List (String × List String)) :
    Except String Workspace :=
  let build_options :=
    (dictGet options "build").getD [] ++
      (match w.host_platform_name with
       | some p => (dictGet options ("build:" ++ p)).getD []
       | none => [])
  match parseKnownArgs build_options with
  | .error e => .error e
  | .ok args =>
    .ok { w with
      values := insertDefines w.values args.2.2,
      copts := w.copts ++ filter_copts args.1,
      cxxopts := w.cxxopts ++ filter_copts args.2.1 }

/-- Run a sequence of `add_bazelrc` calls, stopping at the first fatal parse
error. -/
def addAllBazelrc (w : Workspace) :
    List (List (String × List String)) → Except String Workspace
  | [] => .ok w
  | o :: rest =>
    match add_bazelrc w o with
    | .ok w2 => addAllBazelrc w2 rest
    | .error e => .error e

/-! ### Sequences of `Repository` constructions -/

/-- The argument tuple of one `Repository.__init__` call (minus the workspace
itself). -/
structure RepoArgs where
  bazel_repo_name : String
  cmake_project_name : String
  cmake_binary_dir : String
  source_directory : String
  top_level : Bool
deriving DecidableEq

/-- The `Repository` value that `Repository.__init__` registers for the given
arguments. -/
def mkRepository (a : RepoArgs) : Repository :=
  ⟨a.bazel_repo_name, a.cmake_project_name, as_posix a.cmake_binary_dir,
   as_posix a.source_directory, [], a.top_level⟩

/-- Run a sequence of `Repository` constructions against a workspace,
stopping if an assertion fires. -/
def constructAll (w : Workspace) : List RepoArgs → Option Workspace
  | [] => some w
  | a :: rest =>
    match repositoryInit w a.bazel_repo_name a.cmake_project_name
        a.cmake_binary_dir a.source_directory a.top_level with
    | some w2 => constructAll w2 rest
    | none => none

/-! ### The `local_mirror` rule lowering (`bzl_library/local_mirror.py`) -/

/-- One observable side effect of `_local_mirror_impl`, in program order:
recording the repo-to-project mapping, recording the rule's own target
mapping (`update_target_mapping` from `bzl_library/helpers.py`), one
`CMakeBuilder.addtext` call into the fetch-content declare section (with its
`unique` flag), one `os.makedirs(..., exist_ok=True)`, one
`Path.write_text`, and — kept as its own constructor so that its absence is
expressible — the redirect-descriptor `write_text` of step 10. -/
inductive Effect where
  | setBazelToCmakeDep (repo cmake_name : String)
  | updateTargetMapping (repo : String)
  | addText (text : String) (unique : Bool)
  | mkdirP (path : String)
  | writeFile (path : String) (content : String)
  | writeRedirectConfig (path : String) (content : String)
deriving DecidableEq

/-- One `file(DOWNLOAD ...)` directive: (file, selected URL, digest). -/
def Download : Type := String × String × String

instance : DecidableEq Download := by
  unfold Download
  infer_instance

/-- The result of one `_local_mirror_impl` call: the ordered effect trace, the
download directives contained in the declare-section text emitted at step 7
(empty when the rule aborts before emitting them), and the fatal error, if
one was raised after the traced effects. -/
structure MirrorOutcome where
  trace : List Effect
  downloads : List Download
  error : Option String
deriving DecidableEq

/-- The keyword arguments recognized by `_local_mirror_impl`; unrecognized
keys are ignored by the source and therefore not modelled.  Optional presence
in `kwargs` is `Option`; the dict-valued options are association lists.
`cmakelists_prefix_str` models the `cmakelists_prefix` key. -/
structure LocalMirrorKwargs where
  name : String
  cmake_name : Option String := none
  bazel_to_cmake : Option Bool := none
  cmake_languages : List String := []
  files : List String := []
  file_content : List (String × String) := []
  file_url : List (String × List String) := []
  file_sha256 : List (String × String) := []
  cmakelists_prefix_str : Option String := none
  cmakelists_suffix : Option String := none
  cmake_package_redirect_extra : Option Bool := none
  cmake_package_aliases : Option Bool := none
  cmake_package_redirect_libraries : Option Bool := none
deriving DecidableEq

/-- Modelled from the spec: `quote_string` lives in `cmake_builder.py`, which
is not part of the given sources; per spec §6 it is "a string-quoting helper
for safe embedding of literals/paths in generated text".  Modelled as CMake
double-quoting with backslash-escaping of backslash and quote. -/
def quote_string (s : String) : String :=
  "\"" ++ (⟨s.data.foldr (fun c acc =>
    if c = '"' ∨ c = '\\' then '\\' :: c :: acc else c :: acc) []⟩ : String)
    ++ "\""

/-- The sha-lookup truthiness test: `sha256 = file_sha256.get(file)` followed
by `if not sha256` — absent and empty digests both fail. -/
def shaOk (o : Option String) : Option String :=
  match o with
  | none => none
  | some s => if strIsEmpty s then none else some s

/-- The `ValueError` message for a URL-sourced file without a digest. -/
def shaErrMsg (file : String) : String :=
  "local_mirror requires SHA256 for downloaded file: " ++ file

/-- Step 6, the `for file in files` loop: returns the filesystem effects
performed in order, the download directives accumulated in the `io.StringIO`
buffer `out` (returned structurally; nothing of `out` reaches the builder
when the loop raises), and the `ValueError`, if raised.  Per file: literal
content is written verbatim (parent directories first); otherwise a file with
a non-empty URL list needs a digest or the loop raises; otherwise the file is
skipped. -/
def processFiles (file_content : List (String × String))
    (file_url : List (String × List String))
    (file_sha256 : List (String × String)) (local_mirror_dir : String) :
    List String → List Effect × List Download × Option String
  | [] => ([], [], none)
  | file :: rest =>
    let file_path := pathJoin local_mirror_dir file
    match dictGet file_content file with
    | some content =>
      let r := processFiles file_content file_url file_sha256 local_mirror_dir rest
      (Effect.mkdirP (parentDirStr file_path) :: Effect.writeFile file_path content :: r.1,
       r.2.1, r.2.2)
    | none =>
      match dictGet file_url file with
      | some (url :: _) =>
        match shaOk (dictGet file_sha256 file) with
        | some sha =>
          let r := processFiles file_content file_url file_sha256 local_mirror_dir rest
          (r.1, (file, url, sha) :: r.2.1, r.2.2)
        | none => ([], [], some (shaErrMsg file))
      | _ => processFiles file_content file_url file_sha256 local_mirror_dir rest

/-- The text of one `file(DOWNLOAD ...)` directive as written to `out`. -/
def renderDownload (local_mirror_dir : String) (d : Download) : String :=
  "file(DOWNLOAD " ++ quote_string d.2.1 ++ " " ++
    quote_string (pathJoin local_mirror_dir d.1) ++
    "\n     EXPECTED_HASH \"SHA256=" ++ d.2.2 ++ "\")\n\n"

/-- `out.getvalue()` at the point the accumulated download directives are
appended to the declare section. -/
def renderDownloads (local_mirror_dir : String) (ds : List Download) : String :=
  ds.foldr (fun d acc => renderDownload local_mirror_dir d ++ acc) ""

/-- The Python truthiness test used on `kwargs.get("cmakelists_prefix")` and
`kwargs.get("cmakelists_suffix")`. -/
def optStrText (o : Option String) : String :=
  match o with
  | none => ""
  | some s => if strIsEmpty s then "" else s

/-- The nested `CMakeLists.txt` content of step 8: the indentation marker,
the optional `cmakelists_prefix`, the rule-translation body produced by
`write_bazel_to_cmake_cmakelists` (an external collaborator, passed in as
`rule_translation_text`), and the optional `cmakelists_suffix`. -/
def nestedCMakeListsText (cmake_name : String) (k : LocalMirrorKwargs)
    (rule_translation_text : String) : String :=
  "set(CMAKE_MESSAGE_INDENT \"[" ++ cmake_name ++ "] \")\n" ++
    optStrText k.cmakelists_prefix_str ++ rule_translation_text ++
    optStrText k.cmakelists_suffix

/-- The redirect-descriptor content of step 10. -/
def redirectConfigContent (cmake_name local_mirror_dir : String) : String :=
  "\nset(" ++ strLower cmake_name ++ "_ROOT_DIR " ++ local_mirror_dir ++
    ")\nset(" ++ strLower cmake_name ++ "_FOUND ON)\nset(" ++
    strUpper cmake_name ++ "_FOUND ON)\n"

/-- The `KeyError` raised by `state.workspace.cmake_vars[...]` when the
redirects directory variable is not configured. -/
def keyErrorRedirectsDir : String :=
  "KeyError: CMAKE_FIND_PACKAGE_REDIRECTS_DIR"

/-- `_local_mirror_impl`.  Inputs beyond `kwargs`: the owning repository's
`cmake_binary_dir`, the workspace `cmake_vars`, and the rule-translation body
written by the external `write_bazel_to_cmake_cmakelists` collaborator.
Follows the source line by line: the two silent no-op gates; the
repo-to-project mapping and target mapping; the de-duplicated
`enable_language` directives; the empty-`files` bookkeeping-only return; the
mirror-directory creation; the per-file loop; the three declare-section
`addtext` calls; the nested `CMakeLists.txt` write; the redirects-directory
lookup; the unsupported-redirect-options check; the redirect-descriptor
write. -/
def _local_mirror_impl (repo_cmake_binary_dir : String)
    (cmake_vars : List (String × String)) (rule_translation_text : String)
    (k : LocalMirrorKwargs) : MirrorOutcome :=
  match k.cmake_name with
  | none => ⟨[], [], none⟩
  | some cmake_name =>
    if strIsEmpty cmake_name then ⟨[], [], none⟩
    else match k.bazel_to_cmake with
    | none => ⟨[], [], none⟩
    | some _ =>
      let head : List Effect :=
        Effect.setBazelToCmakeDep k.name cmake_name ::
          Effect.updateTargetMapping k.name ::
          k.cmake_languages.map (fun lang =>
            Effect.addText ("enable_language(" ++ lang ++ ")\n") true)
      if k.files.isEmpty then ⟨head, [], none⟩
      else
        let local_mirror_dir :=
          pathJoin (pathJoin repo_cmake_binary_dir "local_mirror") cmake_name
        let r := processFiles k.file_content k.file_url k.file_sha256
          local_mirror_dir k.files
        let base := head ++ Effect.mkdirP local_mirror_dir :: r.1
        match r.2.2 with
        | some e => ⟨base, [], some e⟩
        | none =>
          let cmaketxt_path := pathJoin local_mirror_dir "CMakeLists.txt"
          let base2 := base ++
            [Effect.addText ("# Loading " ++ k.name ++ "\n") false,
             Effect.addText (renderDownloads local_mirror_dir r.2.1) false,
             Effect.addText ("add_subdirectory(" ++ quote_string local_mirror_dir ++
               " EXCLUDE_FROM_ALL)\n") false,
             Effect.writeFile cmaketxt_path
               (nestedCMakeListsText cmake_name k rule_translation_text)]
          match dictGet cmake_vars "CMAKE_FIND_PACKAGE_REDIRECTS_DIR" with
          | none => ⟨base2, r.2.1, some keyErrorRedirectsDir⟩
          | some redirects_dir =>
            if k.cmake_package_redirect_extra.isSome ||
               k.cmake_package_aliases.isSome ||
               k.cmake_package_redirect_libraries.isSome then
              ⟨base2, r.2.1, some "CMake options not supported by local_mirror"⟩
            else
              let config_path :=
                pathJoin redirects_dir (strLower cmake_name ++ "-config.cmake")
              ⟨base2 ++ [Effect.writeRedirectConfig config_path
                 (redirectConfigContent cmake_name local_mirror_dir)],
               r.2.1, none⟩

/-- A file that makes step 6b raise: no literal content, a non-empty URL
list, and no (or an empty) digest. -/
def offendingFile (file_content : List (String × String))
    (file_url : List (String × List String))
    (file_sha256 : List (String × String)) (file : String) : Bool :=
  (dictGet file_content file).isNone &&
    (match dictGet file_url file with
     | some (_ :: _) => true
     | _ => false) &&
    (shaOk (dictGet file_sha256 file)).isNone

/-- The effects of steps 2–3 (mapping bookkeeping and toolchain
directives), shared by the reduction lemmas below. -/
def headEffects (k : LocalMirrorKwargs) (cmake_name : String) : List Effect :=
  Effect.setBazelToCmakeDep k.name cmake_name ::
    Effect.updateTargetMapping k.name ::
    k.cmake_languages.map (fun lang =>
      Effect.addText ("enable_language(" ++ lang ++ ")\n") true)

/-- The mirror directory for a participating rule. -/
def mirrorDir (repo_cmake_binary_dir cmake_name : String) : String :=
  pathJoin (pathJoin repo_cmake_binary_dir "local_mirror") cmake_name

/-- The declare-section texts and nested-script write of steps 7–8, shared by
the reduction lemmas below. -/
def declareAndNested (body : String) (k : LocalMirrorKwargs)
    (cmake_name dir : String) (ds : List Download) : List Effect :=
  [Effect.addText ("# Loading " ++ k.name ++ "\n") false,
   Effect.addText (renderDownloads dir ds) false,
   Effect.addText ("add_subdirectory(" ++ quote_string dir ++
     " EXCLUDE_FROM_ALL)\n") false,
   Effect.writeFile (pathJoin dir "CMakeLists.txt")
     (nestedCMakeListsText cmake_name k body)]

/-- A concrete parsed `.bazelrc` option set used by witnesses: two `--copt`
values (one a language-standard flag), two `--cxxopt` values (one a
preprocessor define), a `--define`, and an unknown flag. -/
def demoBazelrcOptions : List (String × List String) :=
  [("build", ["--copt=-O2", "--copt=-std=c++17", "--cxxopt=-Wall",
              "--cxxopt=/DWIN32", "--define", "FOO=1", "--unknown_flag", "x"])]

/-! ## Theorems -/

theorem dictGet_dictSet {α β : Type} [DecidableEq α]
    (m : List (α × β)) (k k' : α) (v : β) :
    dictGet (dictSet m k v) k' = if k = k' then some v else dictGet m k' := by
  induction m with
  | nil =>
    by_cases h : k = k' <;> simp [dictGet, dictSet, h]
  | cons p rest ih =>
    by_cases hp : p.1 = k
    · simp only [dictSet, if_pos hp]
      by_cases h : k = k'
      · simp [dictGet, h]
      · have h2 : ¬(p.1 = k') := fun hx => h (hp.symm.trans hx)
        simp [dictGet, h, h2]
    · simp only [dictSet, if_neg hp]
      by_cases h : p.1 = k'
      · have h2 : ¬(k = k') := fun hx => hp (h.trans hx.symm)
        simp [dictGet, h, h2]
      · simp [dictGet, h, ih]

theorem mem_dictSet {α β : Type} [DecidableEq α]
    (m : List (α × β)) (k : α) (v : β) (p : α × β)
    (hp : p ∈ dictSet m k v) : p = (k, v) ∨ p ∈ m := by
  induction m with
  | nil => simpa [dictSet] using hp
  | cons q rest ih =>
    by_cases hq : q.1 = k
    · simp only [dictSet, hq, if_pos rfl] at hp
      rcases List.mem_cons.mp hp with h | h
      · exact Or.inl h
      · exact Or.inr (List.mem_cons_of_mem _ h)
    · simp only [dictSet, hq, if_neg hq] at hp
      rcases List.mem_cons.mp hp with h | h
      · exact Or.inr (h ▸ List.mem_cons_self _ _)
      · rcases ih h with h' | h'
        · exact Or.inl h'
        · exact Or.inr (List.mem_cons_of_mem _ h')

theorem dictGet_none_of_not_mem_keys {α β : Type} [DecidableEq α]
    (m : List (α × β)) (k : α) (h : k ∉ m.map Prod.fst) :
    dictGet m k = none := by
  induction m with
  | nil => rfl
  | cons p rest ih =>
    simp only [List.map_cons, List.mem_cons] at h
    push_neg at h
    have h1 : ¬(p.1 = k) := fun hk => h.1 hk.symm
    simp [dictGet, h1, ih h.2]

theorem dictGet_eraseKey {α β : Type} [DecidableEq α]
    (m : List (α × β)) (k k' : α) :
    dictGet (eraseKey m k) k' = if k' = k then none else dictGet m k' := by
  induction m with
  | nil => by_cases h : k' = k <;> simp [dictGet, eraseKey, h]
  | cons p rest ih =>
    by_cases hp : p.1 = k
    · have : eraseKey (p :: rest) k = eraseKey rest k := by
        simp [eraseKey, hp]
      rw [this, ih]
      by_cases h : k' = k
      · simp [h]
      · have : ¬(p.1 = k') := fun hk => h (hk ▸ hp)
        simp [dictGet, h, this]
    · have : eraseKey (p :: rest) k = p :: eraseKey rest k := by
        simp [eraseKey, hp]
      rw [this]
      by_cases h : p.1 = k'
      · have hkk : ¬(k' = k) := fun hk => hp (h.symm ▸ hk ▸ rfl)
        simp [dictGet, h, hkk]
      · simp [dictGet, h, ih]

theorem processFiles_error_none (fc : List (String × String))
    (fu : List (String × List String)) (fs : List (String × String))
    (dir : String) (l : List String)
    (h : ∀ f ∈ l, offendingFile fc fu fs f = false) :
    (processFiles fc fu fs dir l).2.2 = none := by
  induction l with
  | nil => rfl
  | cons f rest ih =>
    have hf := h f (List.mem_cons_self f rest)
    have hrest : ∀ g ∈ rest, offendingFile fc fu fs g = false :=
      fun g hg => h g (List.mem_cons_of_mem f hg)
    cases hfc : dictGet fc f with
    | some c => simp [processFiles, hfc, ih hrest]
    | none =>
      cases hfu : dictGet fu f with
      | none => simp [processFiles, hfc, hfu, ih hrest]
      | some urls =>
        cases urls with
        | nil => simp [processFiles, hfc, hfu, ih hrest]
        | cons u us =>
          cases hsha : shaOk (dictGet fs f) with
          | some s => simp [processFiles, hfc, hfu, hsha, ih hrest]
          | none =>
            exfalso
            rw [offendingFile, hfc, hfu, hsha] at hf
            simp at hf

theorem processFiles_error_some (fc : List (String × String))
    (fu : List (String × List String)) (fs : List (String × String))
    (dir : String) (l : List String) (m : String)
    (h : (processFiles fc fu fs dir l).2.2 = some m) :
    ∃ f, f ∈ l ∧ offendingFile fc fu fs f = true ∧ m = shaErrMsg f := by
  induction l with
  | nil => simp [processFiles] at h
  | cons f rest ih =>
    cases hfc : dictGet fc f with
    | some c =>
      rw [processFiles, hfc] at h
      simp only at h
      obtain ⟨g, hg, ho, hm⟩ := ih h
      exact ⟨g, List.mem_cons_of_mem f hg, ho, hm⟩
    | none =>
      cases hfu : dictGet fu f with
      | none =>
        rw [processFiles, hfc, hfu] at h
        obtain ⟨g, hg, ho, hm⟩ := ih h
        exact ⟨g, List.mem_cons_of_mem f hg, ho, hm⟩
      | some urls =>
        cases urls with
        | nil =>
          rw [processFiles, hfc, hfu] at h
          obtain ⟨g, hg, ho, hm⟩ := ih h
          exact ⟨g, List.mem_cons_of_mem f hg, ho, hm⟩
        | cons u us =>
          cases hsha : shaOk (dictGet fs f) with
          | some s =>
            rw [processFiles, hfc, hfu, hsha] at h
            simp only at h
            obtain ⟨g, hg, ho, hm⟩ := ih h
            exact ⟨g, List.mem_cons_of_mem f hg, ho, hm⟩
          | none =>
            rw [processFiles, hfc, hfu, hsha] at h
            simp only [Option.some.injEq] at h
            refine ⟨f, List.mem_cons_self f rest, ?_, h.symm⟩
            rw [offendingFile, hfc, hfu, hsha]
            simp

theorem processFiles_error_isSome (fc : List (String × String))
    (fu : List (String × List String)) (fs : List (String × String))
    (dir : String) (l : List String) (f : String) (hf : f ∈ l)
    (ho : offendingFile fc fu fs f = true) :
    ((processFiles fc fu fs dir l).2.2).isSome = true := by
  induction l with
  | nil => cases hf
  | cons g rest ih =>
    rcases List.mem_cons.mp hf with hfg | hfr
    · subst hfg
      rw [offendingFile] at ho
      simp only [Bool.and_eq_true] at ho
      obtain ⟨⟨h1, h2⟩, h3⟩ := ho
      cases hfc : dictGet fc f with
      | some c => rw [hfc] at h1; simp at h1
      | none =>
        cases hfu : dictGet fu f with
        | none => rw [hfu] at h2; simp at h2
        | some urls =>
          cases urls with
          | nil => rw [hfu] at h2; simp at h2
          | cons u us =>
            cases hsha : shaOk (dictGet fs f) with
            | some s => rw [hsha] at h3; simp at h3
            | none =>
              rw [processFiles, hfc, hfu, hsha]
              rfl
    · have ihr := ih hfr
      cases hfc : dictGet fc g with
      | some c =>
        rw [processFiles, hfc]
        exact ihr
      | none =>
        cases hfu : dictGet fu g with
        | none =>
          rw [processFiles, hfc, hfu]
          exact ihr
        | some urls =>
          cases urls with
          | nil =>
            rw [processFiles, hfc, hfu]
            exact ihr
          | cons u us =>
            cases hsha : shaOk (dictGet fs g) with
            | some s =>
              rw [processFiles, hfc, hfu, hsha]
              exact ihr
            | none =>
              rw [processFiles, hfc, hfu, hsha]
              rfl

theorem processFiles_effect_shapes (fc : List (String × String))
    (fu : List (String × List String)) (fs : List (String × String))
    (dir : String) (l : List String) (e : Effect)
    (he : e ∈ (processFiles fc fu fs dir l).1) :
    (∃ p, e = Effect.mkdirP p) ∨ (∃ p c, e = Effect.writeFile p c) := by
  induction l with
  | nil => simp [processFiles] at he
  | cons f rest ih =>
    cases hfc : dictGet fc f with
    | some c =>
      rw [processFiles, hfc] at he
      simp only [List.mem_cons] at he
      rcases he with h | h | h
      · exact Or.inl ⟨_, h⟩
      · exact Or.inr ⟨_, _, h⟩
      · exact ih h
    | none =>
      cases hfu : dictGet fu f with
      | none =>
        rw [processFiles, hfc, hfu] at he
        exact ih he
      | some urls =>
        cases urls with
        | nil =>
          rw [processFiles, hfc, hfu] at he
          exact ih he
        | cons u us =>
          cases hsha : shaOk (dictGet fs f) with
          | some s =>
            rw [processFiles, hfc, hfu, hsha] at he
            exact ih he
          | none =>
            rw [processFiles, hfc, hfu, hsha] at he
            simp at he

theorem processFiles_write_of_content (fc : List (String × String))
    (fu : List (String × List String)) (fs : List (String × String))
    (dir : String) (l₁ l₂ : List String) (f : String) (c : String)
    (hpre : ∀ g ∈ l₁, offendingFile fc fu fs g = false)
    (hc : dictGet fc f = some c) :
    Effect.mkdirP (parentDirStr (pathJoin dir f)) ∈
        (processFiles fc fu fs dir (l₁ ++ f :: l₂)).1 ∧
      Effect.writeFile (pathJoin dir f) c ∈
        (processFiles fc fu fs dir (l₁ ++ f :: l₂)).1 := by
  induction l₁ with
  | nil =>
    rw [List.nil_append, processFiles, hc]
    exact ⟨List.mem_cons_self _ _,
      List.mem_cons_of_mem _ (List.mem_cons_self _ _)⟩
  | cons g rest ih =>
    have hg := hpre g (List.mem_cons_self g rest)
    have hrest : ∀ x ∈ rest, offendingFile fc fu fs x = false :=
      fun x hx => hpre x (List.mem_cons_of_mem g hx)
    have ihr := ih hrest
    rw [List.cons_append]
    cases hfc : dictGet fc g with
    | some cg =>
      rw [processFiles, hfc]
      exact ⟨List.mem_cons_of_mem _ (List.mem_cons_of_mem _ ihr.1),
        List.mem_cons_of_mem _ (List.mem_cons_of_mem _ ihr.2)⟩
    | none =>
      cases hfu : dictGet fu g with
      | none =>
        rw [processFiles, hfc, hfu]
        exact ihr
      | some urls =>
        cases urls with
        | nil =>
          rw [processFiles, hfc, hfu]
          exact ihr
        | cons u us =>
          cases hsha : shaOk (dictGet fs g) with
          | some s =>
            rw [processFiles, hfc, hfu, hsha]
            exact ihr
          | none =>
            exfalso
            rw [offendingFile, hfc, hfu, hsha] at hg
            simp at hg

theorem processFiles_downloads_no_content (fc : List (String × String))
    (fu : List (String × List String)) (fs : List (String × String))
    (dir : String) (l : List String) (d : Download)
    (hd : d ∈ (processFiles fc fu fs dir l).2.1) :
    dictGet fc d.1 = none := by
  induction l with
  | nil => simp [processFiles] at hd
  | cons f rest ih =>
    cases hfc : dictGet fc f with
    | some c =>
      rw [processFiles, hfc] at hd
      exact ih hd
    | none =>
      cases hfu : dictGet fu f with
      | none =>
        rw [processFiles, hfc, hfu] at hd
        exact ih hd
      | some urls =>
        cases urls with
        | nil =>
          rw [processFiles, hfc, hfu] at hd
          exact ih hd
        | cons u us =>
          cases hsha : shaOk (dictGet fs f) with
          | some s =>
            rw [processFiles, hfc, hfu, hsha] at hd
            simp only [List.mem_cons] at hd
            rcases hd with h | h
            · subst h; exact hfc
            · exact ih h
          | none =>
            rw [processFiles, hfc, hfu, hsha] at hd
            simp at hd

theorem impl_error_case (bdir : String) (vars : List (String × String))
    (body : String) (k : LocalMirrorKwargs) (cn : String) (b : Bool)
    (m : String)
    (hcn : k.cmake_name = some cn) (hne : strIsEmpty cn = false)
    (hb : k.bazel_to_cmake = some b) (hfiles : k.files.isEmpty = false)
    (herr : (processFiles k.file_content k.file_url k.file_sha256
       (mirrorDir bdir cn) k.files).2.2 = some m) :
    _local_mirror_impl bdir vars body k =
      ⟨headEffects k cn ++ Effect.mkdirP (mirrorDir bdir cn) ::
         (processFiles k.file_content k.file_url k.file_sha256
           (mirrorDir bdir cn) k.files).1,
       [], some m⟩ := by
  rw [mirrorDir] at herr
  simp only [_local_mirror_impl, hcn, hne, hb, hfiles, herr, headEffects,
    mirrorDir, Bool.false_eq_true, if_false]

theorem impl_keyerror_case (bdir : String) (vars : List (String × String))
    (body : String) (k : LocalMirrorKwargs) (cn : String) (b : Bool)
    (hcn : k.cmake_name = some cn) (hne : strIsEmpty cn = false)
    (hb : k.bazel_to_cmake = some b) (hfiles : k.files.isEmpty = false)
    (herr : (processFiles k.file_content k.file_url k.file_sha256
       (mirrorDir bdir cn) k.files).2.2 = none)
    (hvar : dictGet vars "CMAKE_FIND_PACKAGE_REDIRECTS_DIR" = none) :
    _local_mirror_impl bdir vars body k =
      ⟨(headEffects k cn ++ Effect.mkdirP (mirrorDir bdir cn) ::
          (processFiles k.file_content k.file_url k.file_sha256
            (mirrorDir bdir cn) k.files).1) ++
         declareAndNested body k cn (mirrorDir bdir cn)
           (processFiles k.file_content k.file_url k.file_sha256
             (mirrorDir bdir cn) k.files).2.1,
       (processFiles k.file_content k.file_url k.file_sha256
         (mirrorDir bdir cn) k.files).2.1,
       some keyErrorRedirectsDir⟩ := by
  rw [mirrorDir] at herr
  simp only [_local_mirror_impl, hcn, hne, hb, hfiles, herr, hvar,
    headEffects, mirrorDir, declareAndNested, Bool.false_eq_true, if_false,
    List.append_assoc, List.cons_append, List.nil_append]

theorem impl_redirectopts_case (bdir : String) (vars : List (String × String))
    (body : String) (k : LocalMirrorKwargs) (cn : String) (b : Bool)
    (rdir : String)
    (hcn : k.cmake_name = some cn) (hne : strIsEmpty cn = false)
    (hb : k.bazel_to_cmake = some b) (hfiles : k.files.isEmpty = false)
    (herr : (processFiles k.file_content k.file_url k.file_sha256
       (mirrorDir bdir cn) k.files).2.2 = none)
    (hvar : dictGet vars "CMAKE_FIND_PACKAGE_REDIRECTS_DIR" = some rdir)
    (hopt : (k.cmake_package_redirect_extra.isSome ||
       k.cmake_package_aliases.isSome ||
       k.cmake_package_redirect_libraries.isSome) = true) :
    _local_mirror_impl bdir vars body k =
      ⟨(headEffects k cn ++ Effect.mkdirP (mirrorDir bdir cn) ::
          (processFiles k.file_content k.file_url k.file_sha256
            (mirrorDir bdir cn) k.files).1) ++
         declareAndNested body k cn (mirrorDir bdir cn)
           (processFiles k.file_content k.file_url k.file_sha256
             (mirrorDir bdir cn) k.files).2.1,
       (processFiles k.file_content k.file_url k.file_sha256
         (mirrorDir bdir cn) k.files).2.1,
       some "CMake options not supported by local_mirror"⟩ := by
  rw [mirrorDir] at herr
  simp only [_local_mirror_impl, hcn, hne, hb, hfiles, herr, hvar, hopt,
    headEffects, mirrorDir, declareAndNested, Bool.false_eq_true, if_false,
    if_true, List.append_assoc, List.cons_append, List.nil_append]

theorem impl_success_case (bdir : String) (vars : List (String × String))
    (body : String) (k : LocalMirrorKwargs) (cn : String) (b : Bool)
    (rdir : String)
    (hcn : k.cmake_name = some cn) (hne : strIsEmpty cn = false)
    (hb : k.bazel_to_cmake = some b) (hfiles : k.files.isEmpty = false)
    (herr : (processFiles k.file_content k.file_url k.file_sha256
       (mirrorDir bdir cn) k.files).2.2 = none)
    (hvar : dictGet vars "CMAKE_FIND_PACKAGE_REDIRECTS_DIR" = some rdir)
    (hopt : (k.cmake_package_redirect_extra.isSome ||
       k.cmake_package_aliases.isSome ||
       k.cmake_package_redirect_libraries.isSome) = false) :
    _local_mirror_impl bdir vars body k =
      ⟨((headEffects k cn ++ Effect.mkdirP (mirrorDir bdir cn) ::
          (processFiles k.file_content k.file_url k.file_sha256
            (mirrorDir bdir cn) k.files).1) ++
         declareAndNested body k cn (mirrorDir bdir cn)
           (processFiles k.file_content k.file_url k.file_sha256
             (mirrorDir bdir cn) k.files).2.1) ++
        [Effect.writeRedirectConfig
           (pathJoin rdir (strLower cn ++ "-config.cmake"))
           (redirectConfigContent cn (mirrorDir bdir cn))],
       (processFiles k.file_content k.file_url k.file_sha256
         (mirrorDir bdir cn) k.files).2.1,
       none⟩ := by
  rw [mirrorDir] at herr
  simp only [_local_mirror_impl, hcn, hne, hb, hfiles, herr, hvar, hopt,
    headEffects, mirrorDir, declareAndNested, Bool.false_eq_true, if_false,
    List.append_assoc, List.cons_append, List.nil_append]

theorem headEffects_no_addText_false (k : LocalMirrorKwargs) (cn s : String) :
    Effect.addText s false ∉ headEffects k cn := by
  intro h
  rw [headEffects] at h
  rcases List.mem_cons.mp h with h | h
  · cases h
  · rcases List.mem_cons.mp h with h | h
    · cases h
    · obtain ⟨lang, _, hl⟩ := List.mem_map.mp h
      cases hl

theorem headEffects_no_writeRedirect (k : LocalMirrorKwargs) (cn p c : String) :
    Effect.writeRedirectConfig p c ∉ headEffects k cn := by
  intro h
  rw [headEffects] at h
  rcases List.mem_cons.mp h with h | h
  · cases h
  · rcases List.mem_cons.mp h with h | h
    · cases h
    · obtain ⟨lang, _, hl⟩ := List.mem_map.mp h
      cases hl

theorem declareAndNested_no_writeRedirect (body : String)
    (k : LocalMirrorKwargs) (cn dir : String) (ds : List Download)
    (p c : String) :
    Effect.writeRedirectConfig p c ∉ declareAndNested body k cn dir ds := by
  intro h
  rw [declareAndNested] at h
  rcases List.mem_cons.mp h with h | h
  · cases h
  · rcases List.mem_cons.mp h with h | h
    · cases h
    · rcases List.mem_cons.mp h with h | h
      · cases h
      · rcases List.mem_cons.mp h with h | h
        · cases h
        · cases h

theorem base_no_writeRedirect (bdir : String) (k : LocalMirrorKwargs)
    (cn p c : String) (pf : List Effect)
    (hpf : ∀ e ∈ pf, (∃ q, e = Effect.mkdirP q) ∨ (∃ q d, e = Effect.writeFile q d)) :
    Effect.writeRedirectConfig p c ∉
      headEffects k cn ++ Effect.mkdirP (mirrorDir bdir cn) :: pf := by
  intro h
  rcases List.mem_append.mp h with h | h
  · exact headEffects_no_writeRedirect k cn p c h
  · rcases List.mem_cons.mp h with h | h
    · cases h
    · rcases hpf _ h with ⟨q, hq⟩ | ⟨q, d, hq⟩ <;> cases hq

/-- C9: a mirror-rule invocation in which `cmake_name` or `bazel_to_cmake` is
missing returns silently: no error, and an empty effect trace — so no
workspace mutation, no declare-section text, and no filesystem write. -/
theorem C9_missing_gate_is_silent_noop (bdir : String)
    (vars : List (String × String)) (body : String) (k : LocalMirrorKwargs)
    (h : k.cmake_name = none ∨ k.bazel_to_cmake = none) :
    _local_mirror_impl bdir vars body k = ⟨[], [], none⟩ := by
  rcases h with h | h
  · simp [_local_mirror_impl, h]
  · cases hcn : k.cmake_name with
    | none => simp [_local_mirror_impl, hcn]
    | some cn =>
      by_cases hne : strIsEmpty cn = true
      · simp [_local_mirror_impl, hcn, hne]
      · simp [_local_mirror_impl, hcn, hne, h]

/-- C9 witness at a concrete invocation. -/
theorem C9_missing_gate_is_silent_noop_witness :
    _local_mirror_impl "/b" [] ""
        { name := "repo_x", files := ["a.txt"],
          file_content := [("a.txt", "hello")] } =
      ⟨[], [], none⟩ :=
  C9_missing_gate_is_silent_noop "/b" [] ""
    { name := "repo_x", files := ["a.txt"], file_content := [("a.txt", "hello")] }
    (Or.inl rfl)

/-- C1: in a participating mirror-rule invocation whose `files` contain a
file with no literal content, a non-empty URL list and no `file_sha256`
entry, the lowering raises the fatal `ValueError` naming such an offending
file, and the emitted trace contains no non-unique declare-section `addtext`
— i.e. none of the comment, the download directives, or the
`add_subdirectory` directive has been emitted (only `enable_language`
directives, which are emitted with `unique=True`, may be present). -/
theorem C1_missing_digest_fatal_before_declare_text (bdir : String)
    (vars : List (String × String)) (body : String) (k : LocalMirrorKwargs)
    (cn : String) (b : Bool) (f : String)
    (hcn : k.cmake_name = some cn) (hne : strIsEmpty cn = false)
    (hb : k.bazel_to_cmake = some b)
    (hf : f ∈ k.files)
    (hnc : dictGet k.file_content f = none)
    (hurl : ∃ u us, dictGet k.file_url f = some (u :: us))
    (hsha : dictGet k.file_sha256 f = none) :
    (∃ g, g ∈ k.files ∧
       offendingFile k.file_content k.file_url k.file_sha256 g = true ∧
       (_local_mirror_impl bdir vars body k).error = some (shaErrMsg g)) ∧
    ∀ s, Effect.addText s false ∉ (_local_mirror_impl bdir vars body k).trace := by
  obtain ⟨u, us, hu⟩ := hurl
  have hoff : offendingFile k.file_content k.file_url k.file_sha256 f = true := by
    rw [offendingFile, hnc, hu, hsha]
    rfl
  have hfiles : k.files.isEmpty = false := by
    cases hl : k.files with
    | nil => rw [hl] at hf; cases hf
    | cons a t => rfl
  have hsome := processFiles_error_isSome k.file_content k.file_url
    k.file_sha256 (mirrorDir bdir cn) k.files f hf hoff
  obtain ⟨m, hm⟩ := Option.isSome_iff_exists.mp hsome
  obtain ⟨g, hg, hgo, hgm⟩ := processFiles_error_some _ _ _ _ _ _ hm
  have himpl := impl_error_case bdir vars body k cn b m hcn hne hb hfiles hm
  constructor
  · refine ⟨g, hg, hgo, ?_⟩
    rw [himpl]
    show some m = some (shaErrMsg g)
    exact congrArg some hgm
  · intro s hs
    rw [himpl] at hs
    rcases List.mem_append.mp hs with h | h
    · exact headEffects_no_addText_false k cn s h
    · rcases List.mem_cons.mp h with h2 | h2
      · cases h2
      · rcases processFiles_effect_shapes _ _ _ _ _ _ h2 with ⟨p, hp⟩ | ⟨p, c, hp⟩ <;>
          cases hp

/-- C1 witness: `files=["b.bin"]` with a URL and no digest aborts with the
digest error and emits no non-unique declare-section text. -/
theorem C1_missing_digest_fatal_before_declare_text_witness :
    (∃ g, g ∈ ["b.bin"] ∧
       offendingFile [] [("b.bin", ["http://x/b.bin"])] [] g = true ∧
       (_local_mirror_impl "/b" [] ""
          { name := "repo_x", cmake_name := some "Foo",
            bazel_to_cmake := some true, files := ["b.bin"],
            file_url := [("b.bin", ["http://x/b.bin"])] }).error =
         some (shaErrMsg g)) ∧
    ∀ s, Effect.addText s false ∉
      (_local_mirror_impl "/b" [] ""
        { name := "repo_x", cmake_name := some "Foo",
          bazel_to_cmake := some true, files := ["b.bin"],
          file_url := [("b.bin", ["http://x/b.bin"])] }).trace :=
  C1_missing_digest_fatal_before_declare_text "/b" [] ""
    { name := "repo_x", cmake_name := some "Foo", bazel_to_cmake := some true,
      files := ["b.bin"], file_url := [("b.bin", ["http://x/b.bin"])] }
    "Foo" true "b.bin" rfl (by decide) rfl (by decide) (by decide)
    ⟨"http://x/b.bin", [], by decide⟩ (by decide)

/-- C2: a participating mirror-rule invocation with non-empty `files` and any
of the three unsupported redirect options present raises a fatal error, and
the redirect-descriptor write of step 10 never occurs. -/
theorem C2_unsupported_redirect_options_fatal_no_descriptor (bdir : String)
    (vars : List (String × String)) (body : String) (k : LocalMirrorKwargs)
    (cn : String) (b : Bool)
    (hcn : k.cmake_name = some cn) (hne : strIsEmpty cn = false)
    (hb : k.bazel_to_cmake = some b)
    (hfiles : k.files.isEmpty = false)
    (hopt : k.cmake_package_redirect_extra.isSome = true ∨
      k.cmake_package_aliases.isSome = true ∨
      k.cmake_package_redirect_libraries.isSome = true) :
    (_local_mirror_impl bdir vars body k).error.isSome = true ∧
    ∀ p c, Effect.writeRedirectConfig p c ∉
      (_local_mirror_impl bdir vars body k).trace := by
  have hoptB : (k.cmake_package_redirect_extra.isSome ||
      k.cmake_package_aliases.isSome ||
      k.cmake_package_redirect_libraries.isSome) = true := by
    rcases hopt with h | h | h <;> simp [h]
  have hshapes := processFiles_effect_shapes k.file_content k.file_url
    k.file_sha256 (mirrorDir bdir cn) k.files
  cases herr : (processFiles k.file_content k.file_url k.file_sha256
      (mirrorDir bdir cn) k.files).2.2 with
  | some m =>
    have himpl := impl_error_case bdir vars body k cn b m hcn hne hb hfiles herr
    rw [himpl]
    refine ⟨rfl, fun p c h => ?_⟩
    exact base_no_writeRedirect bdir k cn p c _ hshapes h
  | none =>
    cases hvar : dictGet vars "CMAKE_FIND_PACKAGE_REDIRECTS_DIR" with
    | none =>
      have himpl := impl_keyerror_case bdir vars body k cn b hcn hne hb hfiles
        herr hvar
      rw [himpl]
      refine ⟨rfl, fun p c h => ?_⟩
      rcases List.mem_append.mp h with h | h
      · exact base_no_writeRedirect bdir k cn p c _ hshapes h
      · exact declareAndNested_no_writeRedirect body k cn _ _ p c h
    | some rdir =>
      have himpl := impl_redirectopts_case bdir vars body k cn b rdir hcn hne
        hb hfiles herr hvar hoptB
      rw [himpl]
      refine ⟨rfl, fun p c h => ?_⟩
      rcases List.mem_append.mp h with h | h
      · exact base_no_writeRedirect bdir k cn p c _ hshapes h
      · exact declareAndNested_no_writeRedirect body k cn _ _ p c h

/-- C2 witness: `cmake_package_aliases` with non-empty `files` aborts fatally
and writes no redirect descriptor. -/
theorem C2_unsupported_redirect_options_fatal_no_descriptor_witness :
    (_local_mirror_impl "/b" [("CMAKE_FIND_PACKAGE_REDIRECTS_DIR", "/r")] ""
        { name := "repo_x", cmake_name := some "Foo",
          bazel_to_cmake := some true, files := ["a.txt"],
          file_content := [("a.txt", "hello")],
          cmake_package_aliases := some true }).error.isSome = true ∧
    ∀ p c, Effect.writeRedirectConfig p c ∉
      (_local_mirror_impl "/b" [("CMAKE_FIND_PACKAGE_REDIRECTS_DIR", "/r")] ""
        { name := "repo_x", cmake_name := some "Foo",
          bazel_to_cmake := some true, files := ["a.txt"],
          file_content := [("a.txt", "hello")],
          cmake_package_aliases := some true }).trace :=
  C2_unsupported_redirect_options_fatal_no_descriptor "/b"
    [("CMAKE_FIND_PACKAGE_REDIRECTS_DIR", "/r")] ""
    { name := "repo_x", cmake_name := some "Foo", bazel_to_cmake := some true,
      files := ["a.txt"], file_content := [("a.txt", "hello")],
      cmake_package_aliases := some true }
    "Foo" true rfl (by decide) rfl (by decide) (Or.inr (Or.inl (by decide)))

theorem impl_trace_base_subset (bdir : String) (vars : List (String × String))
    (body : String) (k : LocalMirrorKwargs) (cn : String) (b : Bool)
    (hcn : k.cmake_name = some cn) (hne : strIsEmpty cn = false)
    (hb : k.bazel_to_cmake = some b) (hfiles : k.files.isEmpty = false)
    (e : Effect)
    (he : e ∈ headEffects k cn ++ Effect.mkdirP (mirrorDir bdir cn) ::
      (processFiles k.file_content k.file_url k.file_sha256
        (mirrorDir bdir cn) k.files).1) :
    e ∈ (_local_mirror_impl bdir vars body k).trace := by
  cases herr : (processFiles k.file_content k.file_url k.file_sha256
      (mirrorDir bdir cn) k.files).2.2 with
  | some m =>
    rw [impl_error_case bdir vars body k cn b m hcn hne hb hfiles herr]
    exact he
  | none =>
    cases hvar : dictGet vars "CMAKE_FIND_PACKAGE_REDIRECTS_DIR" with
    | none =>
      rw [impl_keyerror_case bdir vars body k cn b hcn hne hb hfiles herr hvar]
      exact List.mem_append_left _ he
    | some rdir =>
      cases hopt : (k.cmake_package_redirect_extra.isSome ||
          k.cmake_package_aliases.isSome ||
          k.cmake_package_redirect_libraries.isSome) with
      | true =>
        rw [impl_redirectopts_case bdir vars body k cn b rdir hcn hne hb
          hfiles herr hvar hopt]
        exact List.mem_append_left _ he
      | false =>
        rw [impl_success_case bdir vars body k cn b rdir hcn hne hb hfiles
          herr hvar hopt]
        exact List.mem_append_left _ (List.mem_append_left _ he)

theorem impl_downloads_no_content (bdir : String)
    (vars : List (String × String)) (body : String) (k : LocalMirrorKwargs)
    (cn : String) (b : Bool)
    (hcn : k.cmake_name = some cn) (hne : strIsEmpty cn = false)
    (hb : k.bazel_to_cmake = some b) (hfiles : k.files.isEmpty = false)
    (d : Download) (hd : d ∈ (_local_mirror_impl bdir vars body k).downloads) :
    dictGet k.file_content d.1 = none := by
  cases herr : (processFiles k.file_content k.file_url k.file_sha256
      (mirrorDir bdir cn) k.files).2.2 with
  | some m =>
    rw [impl_error_case bdir vars body k cn b m hcn hne hb hfiles herr] at hd
    cases hd
  | none =>
    cases hvar : dictGet vars "CMAKE_FIND_PACKAGE_REDIRECTS_DIR" with
    | none =>
      rw [impl_keyerror_case bdir vars body k cn b hcn hne hb hfiles herr
        hvar] at hd
      exact processFiles_downloads_no_content _ _ _ _ _ _ hd
    | some rdir =>
      cases hopt : (k.cmake_package_redirect_extra.isSome ||
          k.cmake_package_aliases.isSome ||
          k.cmake_package_redirect_libraries.isSome) with
      | true =>
        rw [impl_redirectopts_case bdir vars body k cn b rdir hcn hne hb
          hfiles herr hvar hopt] at hd
        exact processFiles_downloads_no_content _ _ _ _ _ _ hd
      | false =>
        rw [impl_success_case bdir vars body k cn b rdir hcn hne hb hfiles
          herr hvar hopt] at hd
        exact processFiles_downloads_no_content _ _ _ _ _ _ hd

theorem impl_error_implies_gates (bdir : String)
    (vars : List (String × String)) (body : String) (k : LocalMirrorKwargs)
    (e : String) (herr : (_local_mirror_impl bdir vars body k).error = some e) :
    ∃ cn b, k.cmake_name = some cn ∧ strIsEmpty cn = false ∧
      k.bazel_to_cmake = some b ∧ k.files.isEmpty = false := by
  cases hcn : k.cmake_name with
  | none => simp [_local_mirror_impl, hcn] at herr
  | some cn =>
    by_cases hne : strIsEmpty cn = true
    · simp [_local_mirror_impl, hcn, hne] at herr
    · cases hb : k.bazel_to_cmake with
      | none => simp [_local_mirror_impl, hcn, hne, hb] at herr
      | some b =>
        by_cases hfe : k.files.isEmpty = true
        · simp [_local_mirror_impl, hcn, hne, hb, hfe] at herr
        · exact ⟨cn, b, rfl, Bool.not_eq_true _ ▸ hne, rfl,
            Bool.not_eq_true _ ▸ hfe⟩

/-- C7 counterexample: the claim as stated fails when an earlier file in the
declared order aborts the rule.  With `files = ["b.bin", "a.txt"]`, where
`b.bin` has a URL and no digest and `a.txt` has literal content `hello`,
`a.txt` has a `file_content` entry but its content is never written: the loop
raises at `b.bin` first. -/
theorem C7_counterexample_abort_before_content_file :
    dictGet ([("a.txt", "hello")] : List (String × String)) "a.txt" =
        some "hello" ∧
    "a.txt" ∈ ["b.bin", "a.txt"] ∧
    (_local_mirror_impl "/b" [("CMAKE_FIND_PACKAGE_REDIRECTS_DIR", "/r")] ""
        { name := "repo_x", cmake_name := some "Foo",
          bazel_to_cmake := some true, files := ["b.bin", "a.txt"],
          file_content := [("a.txt", "hello")],
          file_url := [("b.bin", ["http://x/b.bin"])] }).error =
      some (shaErrMsg "b.bin") ∧
    Effect.writeFile "/b/local_mirror/Foo/a.txt" "hello" ∉
      (_local_mirror_impl "/b" [("CMAKE_FIND_PACKAGE_REDIRECTS_DIR", "/r")] ""
        { name := "repo_x", cmake_name := some "Foo",
          bazel_to_cmake := some true, files := ["b.bin", "a.txt"],
          file_content := [("a.txt", "hello")],
          file_url := [("b.bin", ["http://x/b.bin"])] }).trace := by
  refine ⟨rfl, by decide, by decide, by decide⟩

/-- C7 (amended): in a participating mirror-rule invocation, for every file
with a `file_content` entry that is not preceded in declared order by a file
that aborts the rule (URL-sourced, digest missing), the literal content is
written verbatim to the file's path under the mirror directory, its parent
directory is created, and no download directive is emitted for that file. -/
theorem C7_content_written_verbatim_no_download (bdir : String)
    (vars : List (String × String)) (body : String) (k : LocalMirrorKwargs)
    (cn : String) (b : Bool) (l₁ l₂ : List String) (f c : String)
    (hcn : k.cmake_name = some cn) (hne : strIsEmpty cn = false)
    (hb : k.bazel_to_cmake = some b)
    (hsplit : k.files = l₁ ++ f :: l₂)
    (hpre : ∀ g ∈ l₁,
      offendingFile k.file_content k.file_url k.file_sha256 g = false)
    (hc : dictGet k.file_content f = some c) :
    Effect.mkdirP (parentDirStr (pathJoin (mirrorDir bdir cn) f)) ∈
        (_local_mirror_impl bdir vars body k).trace ∧
    Effect.writeFile (pathJoin (mirrorDir bdir cn) f) c ∈
        (_local_mirror_impl bdir vars body k).trace ∧
    ∀ d ∈ (_local_mirror_impl bdir vars body k).downloads, d.1 ≠ f := by
  have hfiles : k.files.isEmpty = false := by
    rw [hsplit]; cases l₁ <;> rfl
  have hw := processFiles_write_of_content k.file_content k.file_url
    k.file_sha256 (mirrorDir bdir cn) l₁ l₂ f c hpre hc
  rw [← hsplit] at hw
  refine ⟨?_, ?_, ?_⟩
  · exact impl_trace_base_subset bdir vars body k cn b hcn hne hb hfiles _
      (List.mem_append_right _ (List.mem_cons_of_mem _ hw.1))
  · exact impl_trace_base_subset bdir vars body k cn b hcn hne hb hfiles _
      (List.mem_append_right _ (List.mem_cons_of_mem _ hw.2))
  · intro d hd hdf
    have hnc := impl_downloads_no_content bdir vars body k cn b hcn hne hb
      hfiles d hd
    rw [hdf, hc] at hnc
    cases hnc

/-- C7 witness: `files=["a.txt"]`, `file_content={"a.txt": "hello"}` writes
`hello` verbatim under the mirror directory and emits no download directive
for it. -/
theorem C7_content_written_verbatim_no_download_witness :
    Effect.mkdirP (parentDirStr "/b/local_mirror/Foo/a.txt") ∈
        (_local_mirror_impl "/b" [("CMAKE_FIND_PACKAGE_REDIRECTS_DIR", "/r")] ""
          { name := "repo_x", cmake_name := some "Foo",
            bazel_to_cmake := some true, files := ["a.txt"],
            file_content := [("a.txt", "hello")] }).trace ∧
    Effect.writeFile "/b/local_mirror/Foo/a.txt" "hello" ∈
        (_local_mirror_impl "/b" [("CMAKE_FIND_PACKAGE_REDIRECTS_DIR", "/r")] ""
          { name := "repo_x", cmake_name := some "Foo",
            bazel_to_cmake := some true, files := ["a.txt"],
            file_content := [("a.txt", "hello")] }).trace ∧
    ∀ d ∈ (_local_mirror_impl "/b" [("CMAKE_FIND_PACKAGE_REDIRECTS_DIR", "/r")] ""
          { name := "repo_x", cmake_name := some "Foo",
            bazel_to_cmake := some true, files := ["a.txt"],
            file_content := [("a.txt", "hello")] }).downloads, d.1 ≠ "a.txt" := by
  refine ⟨?_, ?_, ?_⟩
  · exact (C7_content_written_verbatim_no_download "/b"
      [("CMAKE_FIND_PACKAGE_REDIRECTS_DIR", "/r")] ""
      { name := "repo_x", cmake_name := some "Foo",
        bazel_to_cmake := some true, files := ["a.txt"],
        file_content := [("a.txt", "hello")] }
      "Foo" true [] [] "a.txt" "hello" rfl (by decide) rfl rfl
      (by intro g hg; cases hg) rfl).1
  · exact (C7_content_written_verbatim_no_download "/b"
      [("CMAKE_FIND_PACKAGE_REDIRECTS_DIR", "/r")] ""
      { name := "repo_x", cmake_name := some "Foo",
        bazel_to_cmake := some true, files := ["a.txt"],
        file_content := [("a.txt", "hello")] }
      "Foo" true [] [] "a.txt" "hello" rfl (by decide) rfl rfl
      (by intro g hg; cases hg) rfl).2.1
  · exact (C7_content_written_verbatim_no_download "/b"
      [("CMAKE_FIND_PACKAGE_REDIRECTS_DIR", "/r")] ""
      { name := "repo_x", cmake_name := some "Foo",
        bazel_to_cmake := some true, files := ["a.txt"],
        file_content := [("a.txt", "hello")] }
      "Foo" true [] [] "a.txt" "hello" rfl (by decide) rfl rfl
      (by intro g hg; cases hg) rfl).2.2

/-- C8: a mirror rule that reaches step 10 — participating, non-empty
`files`, no file aborting the loop, a configured redirects directory, and
none of the unsupported redirect options — completes without error and
writes the redirect descriptor, named by the lower-cased project name, into
the redirects directory, with content setting the root-directory variable to
the mirror directory and both the lower-case and the upper-case found flag
to `ON`. -/
theorem C8_redirect_descriptor_written (bdir : String)
    (vars : List (String × String)) (body : String) (k : LocalMirrorKwargs)
    (cn : String) (b : Bool) (rdir : String)
    (hcn : k.cmake_name = some cn) (hne : strIsEmpty cn = false)
    (hb : k.bazel_to_cmake = some b)
    (hfiles : k.files.isEmpty = false)
    (hok : ∀ g ∈ k.files,
      offendingFile k.file_content k.file_url k.file_sha256 g = false)
    (hvar : dictGet vars "CMAKE_FIND_PACKAGE_REDIRECTS_DIR" = some rdir)
    (hext : k.cmake_package_redirect_extra = none)
    (hali : k.cmake_package_aliases = none)
    (hlib : k.cmake_package_redirect_libraries = none) :
    (_local_mirror_impl bdir vars body k).error = none ∧
    Effect.writeRedirectConfig
        (pathJoin rdir (strLower cn ++ "-config.cmake"))
        (redirectConfigContent cn (mirrorDir bdir cn)) ∈
      (_local_mirror_impl bdir vars body k).trace := by
  have herr := processFiles_error_none k.file_content k.file_url k.file_sha256
    (mirrorDir bdir cn) k.files hok
  have hopt : (k.cmake_package_redirect_extra.isSome ||
      k.cmake_package_aliases.isSome ||
      k.cmake_package_redirect_libraries.isSome) = false := by
    rw [hext, hali, hlib]; rfl
  rw [impl_success_case bdir vars body k cn b rdir hcn hne hb hfiles herr
    hvar hopt]
  exact ⟨rfl, List.mem_append_right _ (List.mem_singleton.mpr rfl)⟩

/-- C8 witness: a hash-verified URL file completes and writes the
`foo-config.cmake` descriptor with the three assignments. -/
theorem C8_redirect_descriptor_written_witness :
    (_local_mirror_impl "/b" [("CMAKE_FIND_PACKAGE_REDIRECTS_DIR", "/r")] ""
        { name := "repo_x", cmake_name := some "Foo",
          bazel_to_cmake := some true, files := ["c.bin"],
          file_url := [("c.bin", ["http://x/c.bin"])],
          file_sha256 := [("c.bin", "0123abcd")] }).error = none ∧
    Effect.writeRedirectConfig (pathJoin "/r" (strLower "Foo" ++ "-config.cmake"))
        (redirectConfigContent "Foo" (mirrorDir "/b" "Foo")) ∈
      (_local_mirror_impl "/b" [("CMAKE_FIND_PACKAGE_REDIRECTS_DIR", "/r")] ""
        { name := "repo_x", cmake_name := some "Foo",
          bazel_to_cmake := some true, files := ["c.bin"],
          file_url := [("c.bin", ["http://x/c.bin"])],
          file_sha256 := [("c.bin", "0123abcd")] }).trace :=
  C8_redirect_descriptor_written "/b" [("CMAKE_FIND_PACKAGE_REDIRECTS_DIR", "/r")]
    "" { name := "repo_x", cmake_name := some "Foo", bazel_to_cmake := some true,
         files := ["c.bin"], file_url := [("c.bin", ["http://x/c.bin"])],
         file_sha256 := [("c.bin", "0123abcd")] }
    "Foo" true "/r" rfl (by decide) rfl (by decide) (by decide) (by decide)
    rfl rfl rfl

/-- C10: when the lowering raises a fatal error, the traced filesystem
effects are not rolled back: the mirror directory was created, every file
with literal content that precedes the abort point in declared order has
been written (parent directory included), and when no file aborts the loop
(so the error is the unsupported-redirect-options `ValueError` or the
redirects-directory `KeyError`, both raised later) the nested
`CMakeLists.txt` has already been written into the mirror directory. -/
theorem C10_fatal_error_keeps_earlier_writes (bdir : String)
    (vars : List (String × String)) (body : String) (k : LocalMirrorKwargs)
    (e : String)
    (herr : (_local_mirror_impl bdir vars body k).error = some e) :
    ∃ cn, k.cmake_name = some cn ∧
      Effect.mkdirP (mirrorDir bdir cn) ∈
        (_local_mirror_impl bdir vars body k).trace ∧
      (∀ l₁ f l₂ c, k.files = l₁ ++ f :: l₂ →
        (∀ g ∈ l₁,
          offendingFile k.file_content k.file_url k.file_sha256 g = false) →
        dictGet k.file_content f = some c →
        Effect.mkdirP (parentDirStr (pathJoin (mirrorDir bdir cn) f)) ∈
            (_local_mirror_impl bdir vars body k).trace ∧
        Effect.writeFile (pathJoin (mirrorDir bdir cn) f) c ∈
            (_local_mirror_impl bdir vars body k).trace) ∧
      ((∀ g ∈ k.files,
          offendingFile k.file_content k.file_url k.file_sha256 g = false) →
        Effect.writeFile (pathJoin (mirrorDir bdir cn) "CMakeLists.txt")
            (nestedCMakeListsText cn k body) ∈
          (_local_mirror_impl bdir vars body k).trace) := by
  obtain ⟨cn, b, hcn, hne, hb, hfiles⟩ :=
    impl_error_implies_gates bdir vars body k e herr
  refine ⟨cn, hcn, ?_, ?_, ?_⟩
  · exact impl_trace_base_subset bdir vars body k cn b hcn hne hb hfiles _
      (List.mem_append_right _ (List.mem_cons_self _ _))
  · intro l₁ f l₂ c hsplit hpre hc
    have hw := processFiles_write_of_content k.file_content k.file_url
      k.file_sha256 (mirrorDir bdir cn) l₁ l₂ f c hpre hc
    rw [← hsplit] at hw
    exact ⟨impl_trace_base_subset bdir vars body k cn b hcn hne hb hfiles _
        (List.mem_append_right _ (List.mem_cons_of_mem _ hw.1)),
      impl_trace_base_subset bdir vars body k cn b hcn hne hb hfiles _
        (List.mem_append_right _ (List.mem_cons_of_mem _ hw.2))⟩
  · intro hok
    have herr2 := processFiles_error_none k.file_content k.file_url
      k.file_sha256 (mirrorDir bdir cn) k.files hok
    cases hvar : dictGet vars "CMAKE_FIND_PACKAGE_REDIRECTS_DIR" with
    | none =>
      rw [impl_keyerror_case bdir vars body k cn b hcn hne hb hfiles herr2 hvar]
      exact List.mem_append_right _ (by simp [declareAndNested])
    | some rdir =>
      cases hopt : (k.cmake_package_redirect_extra.isSome ||
          k.cmake_package_aliases.isSome ||
          k.cmake_package_redirect_libraries.isSome) with
      | true =>
        rw [impl_redirectopts_case bdir vars body k cn b rdir hcn hne hb
          hfiles herr2 hvar hopt]
        exact List.mem_append_right _ (by simp [declareAndNested])
      | false =>
        rw [impl_success_case bdir vars body k cn b rdir hcn hne hb hfiles
          herr2 hvar hopt] at herr
        simp at herr

/-- C10 witness: an aborting rule (second file lacks its digest) has still
created the mirror directory and written the earlier content file. -/
theorem C10_fatal_error_keeps_earlier_writes_witness :
    (_local_mirror_impl "/b" [("CMAKE_FIND_PACKAGE_REDIRECTS_DIR", "/r")] ""
        { name := "repo_x", cmake_name := some "Foo",
          bazel_to_cmake := some true, files := ["a.txt", "b.bin"],
          file_content := [("a.txt", "hello")],
          file_url := [("b.bin", ["http://x/b.bin"])] }).error =
      some (shaErrMsg "b.bin") ∧
    ∃ cn, (LocalMirrorKwargs.cmake_name
        { name := "repo_x", cmake_name := some "Foo",
          bazel_to_cmake := some true, files := ["a.txt", "b.bin"],
          file_content := [("a.txt", "hello")],
          file_url := [("b.bin", ["http://x/b.bin"])] }) = some cn ∧
      Effect.mkdirP (mirrorDir "/b" cn) ∈
        (_local_mirror_impl "/b" [("CMAKE_FIND_PACKAGE_REDIRECTS_DIR", "/r")] ""
          { name := "repo_x", cmake_name := some "Foo",
            bazel_to_cmake := some true, files := ["a.txt", "b.bin"],
            file_content := [("a.txt", "hello")],
            file_url := [("b.bin", ["http://x/b.bin"])] }).trace ∧
      (∀ l₁ f l₂ c,
        (["a.txt", "b.bin"] : List String) = l₁ ++ f :: l₂ →
        (∀ g ∈ l₁, offendingFile [("a.txt", "hello")]
          [("b.bin", ["http://x/b.bin"])] [] g = false) →
        dictGet [("a.txt", "hello")] f = some c →
        Effect.mkdirP (parentDirStr (pathJoin (mirrorDir "/b" cn) f)) ∈
            (_local_mirror_impl "/b" [("CMAKE_FIND_PACKAGE_REDIRECTS_DIR", "/r")] ""
              { name := "repo_x", cmake_name := some "Foo",
                bazel_to_cmake := some true, files := ["a.txt", "b.bin"],
                file_content := [("a.txt", "hello")],
                file_url := [("b.bin", ["http://x/b.bin"])] }).trace ∧
        Effect.writeFile (pathJoin (mirrorDir "/b" cn) f) c ∈
            (_local_mirror_impl "/b" [("CMAKE_FIND_PACKAGE_REDIRECTS_DIR", "/r")] ""
              { name := "repo_x", cmake_name := some "Foo",
                bazel_to_cmake := some true, files := ["a.txt", "b.bin"],
                file_content := [("a.txt", "hello")],
                file_url := [("b.bin", ["http://x/b.bin"])] }).trace) ∧
      ((∀ g ∈ (["a.txt", "b.bin"] : List String),
          offendingFile [("a.txt", "hello")]
            [("b.bin", ["http://x/b.bin"])] [] g = false) →
        Effect.writeFile (pathJoin (mirrorDir "/b" cn) "CMakeLists.txt")
            (nestedCMakeListsText cn
              { name := "repo_x", cmake_name := some "Foo",
                bazel_to_cmake := some true, files := ["a.txt", "b.bin"],
                file_content := [("a.txt", "hello")],
                file_url := [("b.bin", ["http://x/b.bin"])] } "") ∈
          (_local_mirror_impl "/b" [("CMAKE_FIND_PACKAGE_REDIRECTS_DIR", "/r")] ""
            { name := "repo_x", cmake_name := some "Foo",
              bazel_to_cmake := some true, files := ["a.txt", "b.bin"],
              file_content := [("a.txt", "hello")],
              file_url := [("b.bin", ["http://x/b.bin"])] }).trace) :=
  ⟨by decide,
   C10_fatal_error_keeps_earlier_writes "/b"
     [("CMAKE_FIND_PACKAGE_REDIRECTS_DIR", "/r")] ""
     { name := "repo_x", cmake_name := some "Foo", bazel_to_cmake := some true,
       files := ["a.txt", "b.bin"], file_content := [("a.txt", "hello")],
       file_url := [("b.bin", ["http://x/b.bin"])] }
     (shaErrMsg "b.bin") (by decide)⟩

theorem dictGet_foldl_erase {α β : Type} [DecidableEq α] (dels : List α)
    (m : List (α × β)) (t : α) :
    dictGet (dels.foldl (fun acc k => eraseKey acc k) m) t =
      if t ∈ dels then none else dictGet m t := by
  induction dels generalizing m with
  | nil => simp
  | cons d ds ih =>
    rw [List.foldl_cons, ih]
    by_cases h : t ∈ ds
    · simp [h]
    · rw [dictGet_eraseKey]
      by_cases h2 : t = d
      · simp [h2]
      · simp [h, h2]

/-- C5: `exclude_repo_targets r` removes from the analyzed-target cache
exactly the entries whose repository id equals `r`: afterwards a lookup of
any target of repository `r` yields nothing, and a lookup of any other
target is unchanged. -/
theorem C5_exclude_repo_targets_exact (w : Workspace) (r : String)
    (t : TargetId) :
    dictGet (exclude_repo_targets w r).analyzed_targets t =
      if t.repository_id = r then none
      else dictGet w.analyzed_targets t := by
  show dictGet
    (((w.analyzed_targets.map Prod.fst).filter
        (fun x => x.repository_id = r)).foldl
      (fun m x => eraseKey m x) w.analyzed_targets) t = _
  rw [dictGet_foldl_erase]
  by_cases hr : t.repository_id = r
  · rw [if_pos hr]
    by_cases hm : t ∈ w.analyzed_targets.map Prod.fst
    · have hd : t ∈ (w.analyzed_targets.map Prod.fst).filter
          (fun x => x.repository_id = r) :=
        List.mem_filter.mpr ⟨hm, by simp [hr]⟩
      rw [if_pos hd]
    · have hd : t ∉ (w.analyzed_targets.map Prod.fst).filter
          (fun x => x.repository_id = r) :=
        fun hc => hm (List.mem_filter.mp hc).1
      rw [if_neg hd, dictGet_none_of_not_mem_keys _ _ hm]
  · have hd : t ∉ (w.analyzed_targets.map Prod.fst).filter
        (fun x => x.repository_id = r) := by
      intro hc
      exact hr (by simpa using (List.mem_filter.mp hc).2)
    rw [if_neg hd, if_neg hr]

/-- C6: `set_bazel_target_mapping` (the spec's `record_target_mapping`)
stores, under the resolved absolute `TargetId`, a `TargetInfo` holding the
`CMakeDepsProvider` exactly when a generated CMake target is given and the
`CMakePackageDepsProvider` exactly when a generated CMake package is given —
both for a target given as a `TargetId` and for one given as a string that
parses — and fails with `InvalidArgument` when the string cannot be parsed
to an absolute target. -/
theorem C6_record_target_mapping (w : Workspace) (ct cp : Option String) :
    (∀ s t, parse_absolute_target s = some t →
      ∃ w', set_bazel_target_mapping w (.byString s) ct cp = .ok w' ∧
        dictGet w'.analyzed_targets t = some ⟨(match ct with
            | some c => [Provider.CMakeDepsProvider [c]]
            | none => []) ++
          (match cp with
            | some p => [Provider.CMakePackageDepsProvider [p]]
            | none => [])⟩) ∧
    (∀ t, ∃ w', set_bazel_target_mapping w (.byId t) ct cp = .ok w' ∧
      dictGet w'.analyzed_targets t = some ⟨(match ct with
          | some c => [Provider.CMakeDepsProvider [c]]
          | none => []) ++
        (match cp with
          | some p => [Provider.CMakePackageDepsProvider [p]]
          | none => [])⟩) ∧
    (∀ s, parse_absolute_target s = none →
      set_bazel_target_mapping w (.byString s) ct cp =
        .error "InvalidArgument") := by
  refine ⟨fun s t hparse => ?_, fun t => ?_, fun s hparse => ?_⟩
  · have hok : set_bazel_target_mapping w (.byString s) ct cp =
        .ok { w with analyzed_targets := (dictSet w.analyzed_targets t
          ⟨(match ct with
              | some c => [Provider.CMakeDepsProvider [c]]
              | none => []) ++
            (match cp with
              | some p => [Provider.CMakePackageDepsProvider [p]]
              | none => [])⟩) } := by
      simp only [set_bazel_target_mapping, hparse]
    refine ⟨_, hok, ?_⟩
    simp [dictGet_dictSet]
  · refine ⟨_, rfl, ?_⟩
    simp [set_bazel_target_mapping, dictGet_dictSet]
  · simp only [set_bazel_target_mapping, hparse]

/-- C6 witness: `@foo//bar:baz` parses and is recorded with both providers;
`nonsense` fails with `InvalidArgument`. -/
theorem C6_record_target_mapping_witness :
    (∃ w', set_bazel_target_mapping (workspaceInit "Linux" [] none)
        (.byString "@foo//bar:baz") (some "ct") (some "pkg") = .ok w' ∧
      dictGet w'.analyzed_targets ⟨"foo", "bar", "baz"⟩ =
        some ⟨[Provider.CMakeDepsProvider ["ct"],
               Provider.CMakePackageDepsProvider ["pkg"]]⟩) ∧
    set_bazel_target_mapping (workspaceInit "Linux" [] none)
        (.byString "nonsense") (some "ct") (some "pkg") =
      .error "InvalidArgument" := by
  constructor
  · have h := (C6_record_target_mapping (workspaceInit "Linux" [] none)
      (some "ct") (some "pkg")).1 "@foo//bar:baz" ⟨"foo", "bar", "baz"⟩
      (by decide)
    exact h
  · exact (C6_record_target_mapping (workspaceInit "Linux" [] none)
      (some "ct") (some "pkg")).2.2 "nonsense" (by decide)

theorem mem_insertSet {α : Type} [DecidableEq α] (s : List α) (x y : α) :
    y ∈ insertSet s x ↔ y ∈ s ∨ y = x := by
  rw [insertSet]
  by_cases h : x ∈ s
  · rw [if_pos h]
    constructor
    · exact Or.inl
    · rintro (h1 | h1)
      · exact h1
      · exact h1 ▸ h
  · rw [if_neg h]
    simp [List.mem_append]

theorem mem_insertDefines (vs : List (String × String)) (ds : List String)
    (p : String × String) :
    p ∈ insertDefines vs ds ↔ p ∈ vs ∨ ∃ d ∈ ds, p = ("define", d) := by
  induction ds generalizing vs with
  | nil => simp [insertDefines]
  | cons d ds ih =>
    have hstep : insertDefines vs (d :: ds) =
        insertDefines (insertSet vs ("define", d)) ds := rfl
    rw [hstep, ih, mem_insertSet]
    constructor
    · rintro ((h | h) | ⟨e, he, hp⟩)
      · exact Or.inl h
      · exact Or.inr ⟨d, List.mem_cons_self _ _, h⟩
      · exact Or.inr ⟨e, List.mem_cons_of_mem _ he, hp⟩
    · rintro (h | ⟨e, he, hp⟩)
      · exact Or.inl (Or.inl h)
      · rcases List.mem_cons.mp he with h1 | h1
        · subst h1
          exact Or.inl (Or.inr hp)
        · exact Or.inr ⟨e, h1, hp⟩

theorem insertDefines_idem_mem (vs : List (String × String)) (ds : List String)
    (p : String × String) :
    p ∈ insertDefines (insertDefines vs ds) ds ↔ p ∈ insertDefines vs ds := by
  constructor
  · intro h
    rcases (mem_insertDefines _ _ _).mp h with h1 | ⟨d, hd, hp⟩
    · exact h1
    · exact (mem_insertDefines _ _ _).mpr (Or.inr ⟨d, hd, hp⟩)
  · intro h
    exact (mem_insertDefines _ _ _).mpr (Or.inl h)

theorem add_bazelrc_ok (w w' : Workspace) (options : List (String × List String))
    (h : add_bazelrc w options = .ok w') :
    ∃ args : List String × List String × List String,
      parseKnownArgs ((dictGet options "build").getD [] ++
        (match w.host_platform_name with
         | some p => (dictGet options ("build:" ++ p)).getD []
         | none => [])) = .ok args ∧
      w' = { w with
             values := insertDefines w.values args.2.2
             copts := w.copts ++ filter_copts args.1
             cxxopts := w.cxxopts ++ filter_copts args.2.1 } := by
  simp only [add_bazelrc] at h
  cases hp : parseKnownArgs ((dictGet options "build").getD [] ++
      (match w.host_platform_name with
       | some p => (dictGet options ("build:" ++ p)).getD []
       | none => [])) with
  | error e =>
    rw [hp] at h
    cases h
  | ok args =>
    rw [hp] at h
    injection h with h2
    exact ⟨args, rfl, h2.symm⟩

theorem add_bazelrc_preserves_filtered (w w' : Workspace)
    (options : List (String × List String))
    (h : add_bazelrc w options = .ok w')
    (hc : ∀ o ∈ w.copts, coptFilterMatch o = false)
    (hx : ∀ o ∈ w.cxxopts, coptFilterMatch o = false) :
    (∀ o ∈ w'.copts, coptFilterMatch o = false) ∧
    (∀ o ∈ w'.cxxopts, coptFilterMatch o = false) := by
  obtain ⟨args, _, hw⟩ := add_bazelrc_ok w w' options h
  subst hw
  constructor
  · intro o ho
    rcases List.mem_append.mp ho with h1 | h1
    · exact hc o h1
    · rw [filter_copts] at h1
      exact of_decide_eq_true (List.mem_filter.mp h1).2
  · intro o ho
    rcases List.mem_append.mp ho with h1 | h1
    · exact hx o h1
    · rw [filter_copts] at h1
      exact of_decide_eq_true (List.mem_filter.mp h1).2

theorem addAllBazelrc_preserves_filtered
    (seq : List (List (String × List String))) (w w' : Workspace)
    (h : addAllBazelrc w seq = .ok w')
    (hc : ∀ o ∈ w.copts, coptFilterMatch o = false)
    (hx : ∀ o ∈ w.cxxopts, coptFilterMatch o = false) :
    (∀ o ∈ w'.copts, coptFilterMatch o = false) ∧
    (∀ o ∈ w'.cxxopts, coptFilterMatch o = false) := by
  induction seq generalizing w with
  | nil =>
    rw [addAllBazelrc] at h
    injection h with h2
    subst h2
    exact ⟨hc, hx⟩
  | cons o rest ih =>
    rw [addAllBazelrc] at h
    cases ha : add_bazelrc w o with
    | error e =>
      rw [ha] at h
      cases h
    | ok w2 =>
      rw [ha] at h
      obtain ⟨hc2, hx2⟩ := add_bazelrc_preserves_filtered w w2 o ha hc hx
      exact ih w2 h hc2 hx2

theorem coptFilterMatch_eq_false_iff (o : String) :
    coptFilterMatch o = false ↔
      strStartsWith o "-std" = false ∧ strStartsWith o "/std" = false ∧
      strStartsWith o "-fdiagnostics-color=" = false ∧
      strStartsWith o "-D" = false ∧ strStartsWith o "/D" = false := by
  rw [coptFilterMatch]
  cases strStartsWith o "-std" <;> cases strStartsWith o "/std" <;>
    cases strStartsWith o "-fdiagnostics-color=" <;>
    cases strStartsWith o "-D" <;> cases strStartsWith o "/D" <;> simp

/-- C4: processing the same parsed `.bazelrc` option set twice accumulates:
the second call appends the same filtered `--copt`/`--cxxopt` values again to
the ordered lists and re-unions the same `--define` pairs into the set, which
leaves the set unchanged (accumulate, never overwrite); and after any
sequence of `add_bazelrc` calls on a freshly constructed workspace, no
element of the `copts` or `cxxopts` lists matches any of the patterns
`-std*`, `/std*`, `-fdiagnostics-color=*`, `-D*`, `/D*`. -/
theorem C4_add_bazelrc_accumulates_and_filters :
    (∀ (w w₁ w₂ : Workspace) (options : List (String × List String)),
      add_bazelrc w options = .ok w₁ → add_bazelrc w₁ options = .ok w₂ →
      ∃ c x ds, w₁.copts = w.copts ++ c ∧ w₂.copts = w₁.copts ++ c ∧
        w₁.cxxopts = w.cxxopts ++ x ∧ w₂.cxxopts = w₁.cxxopts ++ x ∧
        w₁.values = insertDefines w.values ds ∧
        w₂.values = insertDefines w₁.values ds ∧
        (∀ p, p ∈ w₂.values ↔ p ∈ w₁.values)) ∧
    (∀ (system_name : String) (cmake_vars : List (String × String))
       (save : Option String) (seq : List (List (String × List String)))
       (w' : Workspace),
      addAllBazelrc (workspaceInit system_name cmake_vars save) seq = .ok w' →
      ∀ o, o ∈ w'.copts ∨ o ∈ w'.cxxopts →
        strStartsWith o "-std" = false ∧ strStartsWith o "/std" = false ∧
        strStartsWith o "-fdiagnostics-color=" = false ∧
        strStartsWith o "-D" = false ∧ strStartsWith o "/D" = false) := by
  constructor
  · intro w w₁ w₂ options h₁ h₂
    obtain ⟨args1, hp1, hw1⟩ := add_bazelrc_ok w w₁ options h₁
    obtain ⟨args2, hp2, hw2⟩ := add_bazelrc_ok w₁ w₂ options h₂
    subst hw1
    have hargs : (Except.ok args1 :
        Except String (List String × List String × List String)) =
        Except.ok args2 := by
      rw [← hp1, ← hp2]
    injection hargs with he
    subst he
    subst hw2
    refine ⟨filter_copts args1.1, filter_copts args1.2.1, args1.2.2,
      rfl, rfl, rfl, rfl, rfl, rfl, ?_⟩
    intro p
    exact insertDefines_idem_mem w.values args1.2.2 p
  · intro system_name cmake_vars save seq w' hrun o ho
    have base : ∀ x ∈ (workspaceInit system_name cmake_vars save).copts,
        coptFilterMatch x = false := by
      intro x hx
      cases hx
    have base2 : ∀ x ∈ (workspaceInit system_name cmake_vars save).cxxopts,
        coptFilterMatch x = false := by
      intro x hx
      cases hx
    obtain ⟨hgc, hgx⟩ := addAllBazelrc_preserves_filtered seq _ w' hrun base base2
    have hm : coptFilterMatch o = false := by
      rcases ho with h | h
      · exact hgc o h
      · exact hgx o h
    exact (coptFilterMatch_eq_false_iff o).mp hm

/-- C4 witness: the accumulation and the filter invariant at a concrete
option set containing `-std`/`/D` values. -/
theorem C4_add_bazelrc_accumulates_and_filters_witness :
    (∃ w₁ w₂, add_bazelrc (workspaceInit "Linux" [] none) demoBazelrcOptions =
        .ok w₁ ∧
      add_bazelrc w₁ demoBazelrcOptions = .ok w₂ ∧
      ∃ c x ds, w₁.copts = (workspaceInit "Linux" [] none).copts ++ c ∧
        w₂.copts = w₁.copts ++ c ∧
        w₁.cxxopts = (workspaceInit "Linux" [] none).cxxopts ++ x ∧
        w₂.cxxopts = w₁.cxxopts ++ x ∧
        w₁.values = insertDefines (workspaceInit "Linux" [] none).values ds ∧
        w₂.values = insertDefines w₁.values ds ∧
        (∀ p, p ∈ w₂.values ↔ p ∈ w₁.values)) ∧
    (∃ w', addAllBazelrc (workspaceInit "Linux" [] none)
        [demoBazelrcOptions] = .ok w' ∧
      ∀ o, o ∈ w'.copts ∨ o ∈ w'.cxxopts →
        strStartsWith o "-std" = false ∧ strStartsWith o "/std" = false ∧
        strStartsWith o "-fdiagnostics-color=" = false ∧
        strStartsWith o "-D" = false ∧ strStartsWith o "/D" = false) := by
  constructor
  · exact ⟨_, _, rfl, rfl,
      C4_add_bazelrc_accumulates_and_filters.1 _ _ _ demoBazelrcOptions rfl rfl⟩
  · exact ⟨_, rfl, fun o ho =>
      C4_add_bazelrc_accumulates_and_filters.2 "Linux" [] none
        [demoBazelrcOptions] _ rfl o ho⟩

theorem dictGet_mem {α β : Type} [DecidableEq α] (m : List (α × β)) (k : α)
    (v : β) (h : dictGet m k = some v) : (k, v) ∈ m := by
  induction m with
  | nil => cases h
  | cons p rest ih =>
    rw [dictGet] at h
    by_cases hp : p.1 = k
    · rw [if_pos hp] at h
      injection h with h2
      subst h2
      rw [← hp]
      exact List.mem_cons_self p rest
    · rw [if_neg hp] at h
      exact List.mem_cons_of_mem _ (ih h)

theorem repositoryInit_ok (w w2 : Workspace) (a : RepoArgs)
    (h : repositoryInit w a.bazel_repo_name a.cmake_project_name
      a.cmake_binary_dir a.source_directory a.top_level = some w2) :
    strIsEmpty a.bazel_repo_name = false ∧
    w2.repos = (if a.top_level = true
      then dictSet (dictSet w.repos a.bazel_repo_name (mkRepository a)) ""
        (mkRepository a)
      else dictSet w.repos a.bazel_repo_name (mkRepository a)) := by
  by_cases hne : strIsEmpty a.bazel_repo_name = true
  · rw [repositoryInit, if_pos hne] at h
    cases h
  · rw [repositoryInit, if_neg hne] at h
    injection h with h2
    subst h2
    exact ⟨Bool.not_eq_true _ ▸ hne, rfl⟩

theorem strIsEmpty_false_ne_empty (n : String) (h : strIsEmpty n = false) :
    ¬(n = "") := by
  intro hc
  rw [hc] at h
  exact absurd h (by decide)

theorem constructAll_lookup_preserved (args : List RepoArgs) (w' : Workspace)
    (key : String) :
    ∀ w, constructAll w args = some w' → ¬(key = "") →
    (∀ a ∈ args, ¬(a.bazel_repo_name = key)) →
    dictGet w'.repos key = dictGet w.repos key := by
  induction args with
  | nil =>
    intro w h _ _
    rw [constructAll] at h
    injection h with h2
    subst h2
    rfl
  | cons a rest ih =>
    intro w h hkey hnm
    rw [constructAll] at h
    cases hinit : repositoryInit w a.bazel_repo_name a.cmake_project_name
        a.cmake_binary_dir a.source_directory a.top_level with
    | none =>
      rw [hinit] at h
      cases h
    | some w2 =>
      rw [hinit] at h
      obtain ⟨hne, hrepos⟩ := repositoryInit_ok w w2 a hinit
      have hrest := ih w2 h hkey
        (fun b hb => hnm b (List.mem_cons_of_mem _ hb))
      rw [hrest, hrepos]
      have hnk : ¬(a.bazel_repo_name = key) := hnm a (List.mem_cons_self _ _)
      by_cases htl : a.top_level = true
      · rw [if_pos htl, dictGet_dictSet, if_neg (fun hc => hkey hc.symm),
          dictGet_dictSet, if_neg hnk]
      · rw [if_neg htl, dictGet_dictSet, if_neg hnk]

theorem constructAll_empty_preserved (args : List RepoArgs) (w' : Workspace) :
    ∀ w, constructAll w args = some w' →
    (∀ a ∈ args, a.top_level = false) →
    dictGet w'.repos "" = dictGet w.repos "" := by
  induction args with
  | nil =>
    intro w h _
    rw [constructAll] at h
    injection h with h2
    subst h2
    rfl
  | cons a rest ih =>
    intro w h hnt
    rw [constructAll] at h
    cases hinit : repositoryInit w a.bazel_repo_name a.cmake_project_name
        a.cmake_binary_dir a.source_directory a.top_level with
    | none =>
      rw [hinit] at h
      cases h
    | some w2 =>
      rw [hinit] at h
      obtain ⟨hne, hrepos⟩ := repositoryInit_ok w w2 a hinit
      have hrest := ih w2 h (fun b hb => hnt b (List.mem_cons_of_mem _ hb))
      rw [hrest, hrepos]
      have hat : a.top_level = false := hnt a (List.mem_cons_self _ _)
      have hif : ¬(a.top_level = true) := by
        rw [hat]
        exact Bool.false_ne_true
      rw [if_neg hif, dictGet_dictSet,
        if_neg (fun hc => strIsEmpty_false_ne_empty _ hne hc)]

theorem constructAll_lookup_own (args : List RepoArgs) (a : RepoArgs)
    (w' : Workspace) :
    ∀ w, constructAll w args = some w' →
    (args.map fun x => x.bazel_repo_name).Nodup → a ∈ args →
    dictGet w'.repos a.bazel_repo_name = some (mkRepository a) := by
  induction args with
  | nil =>
    intro w _ _ ha
    cases ha
  | cons b rest ih =>
    intro w h hn ha
    rw [constructAll] at h
    cases hinit : repositoryInit w b.bazel_repo_name b.cmake_project_name
        b.cmake_binary_dir b.source_directory b.top_level with
    | none =>
      rw [hinit] at h
      cases h
    | some w2 =>
      rw [hinit] at h
      obtain ⟨hne, hrepos⟩ := repositoryInit_ok w w2 b hinit
      obtain ⟨hhead, htail⟩ := List.nodup_cons.mp hn
      rcases List.mem_cons.mp ha with hab | har
      · subst hab
        have hnm : ∀ c ∈ rest, ¬(c.bazel_repo_name = a.bazel_repo_name) :=
          fun c hc hceq => hhead (List.mem_map.mpr ⟨c, hc, hceq⟩)
        have hkey : ¬(a.bazel_repo_name = "") :=
          strIsEmpty_false_ne_empty _ hne
        rw [constructAll_lookup_preserved rest w' a.bazel_repo_name w2 h hkey
          hnm, hrepos]
        by_cases htl : a.top_level = true
        · rw [if_pos htl, dictGet_dictSet, if_neg (fun hc => hkey hc.symm),
            dictGet_dictSet, if_pos rfl]
        · rw [if_neg htl, dictGet_dictSet, if_pos rfl]
      · exact ih w2 h htail har

theorem constructAll_lookup_empty (args : List RepoArgs) (t : RepoArgs)
    (w' : Workspace) :
    ∀ w, constructAll w args = some w' →
    (args.map fun x => x.bazel_repo_name).Nodup →
    t ∈ args → t.top_level = true →
    (∀ a ∈ args, a.top_level = true → a = t) →
    dictGet w'.repos "" = some (mkRepository t) := by
  induction args with
  | nil =>
    intro w _ _ ht
    cases ht
  | cons b rest ih =>
    intro w h hn ht htop huniq
    rw [constructAll] at h
    cases hinit : repositoryInit w b.bazel_repo_name b.cmake_project_name
        b.cmake_binary_dir b.source_directory b.top_level with
    | none =>
      rw [hinit] at h
      cases h
    | some w2 =>
      rw [hinit] at h
      obtain ⟨hne, hrepos⟩ := repositoryInit_ok w w2 b hinit
      obtain ⟨hhead, htail⟩ := List.nodup_cons.mp hn
      by_cases hbt : b.top_level = true
      · have hbteq : b = t := huniq b (List.mem_cons_self _ _) hbt
        subst hbteq
        have hrnt : ∀ a ∈ rest, a.top_level = false := by
          intro a haR
          cases hat : a.top_level with
          | false => rfl
          | true =>
            exfalso
            have hab : a = b := huniq a (List.mem_cons_of_mem _ haR) hat
            exact hhead (hab ▸ List.mem_map_of_mem _ haR)
        rw [constructAll_empty_preserved rest w' w2 h hrnt, hrepos,
          if_pos hbt, dictGet_dictSet, if_pos rfl]
      · have htr : t ∈ rest := by
          rcases List.mem_cons.mp ht with hteq | htr
          · exfalso
            rw [hteq] at htop
            exact hbt htop
          · exact htr
        exact ih w2 h htail htr htop
          (fun a haR hat => huniq a (List.mem_cons_of_mem _ haR) hat)

theorem constructAll_repo_values (args : List RepoArgs) (w' : Workspace) :
    ∀ w, constructAll w args = some w' → ∀ p ∈ w'.repos,
    (∃ q ∈ w.repos, p.2 = q.2) ∨ ∃ a ∈ args, p.2 = mkRepository a := by
  induction args with
  | nil =>
    intro w h p hp
    rw [constructAll] at h
    injection h with h2
    subst h2
    exact Or.inl ⟨p, hp, rfl⟩
  | cons b rest ih =>
    intro w h p hp
    rw [constructAll] at h
    cases hinit : repositoryInit w b.bazel_repo_name b.cmake_project_name
        b.cmake_binary_dir b.source_directory b.top_level with
    | none =>
      rw [hinit] at h
      cases h
    | some w2 =>
      rw [hinit] at h
      obtain ⟨hne, hrepos⟩ := repositoryInit_ok w w2 b hinit
      rcases ih w2 h p hp with ⟨q, hq, hpq⟩ | ⟨a, haa, hpa⟩
      · rw [hrepos] at hq
        by_cases htl : b.top_level = true
        · rw [if_pos htl] at hq
          rcases mem_dictSet _ _ _ _ hq with hq1 | hq1
          · exact Or.inr ⟨b, List.mem_cons_self _ _, by rw [hpq, hq1]⟩
          · rcases mem_dictSet _ _ _ _ hq1 with hq2 | hq2
            · exact Or.inr ⟨b, List.mem_cons_self _ _, by rw [hpq, hq2]⟩
            · exact Or.inl ⟨q, hq2, hpq⟩
        · rw [if_neg htl] at hq
          rcases mem_dictSet _ _ _ _ hq with hq1 | hq1
          · exact Or.inr ⟨b, List.mem_cons_self _ _, by rw [hpq, hq1]⟩
          · exact Or.inl ⟨q, hq1, hpq⟩
      · exact Or.inr ⟨a, List.mem_cons_of_mem _ haa, hpa⟩

/-- C3 counterexample: the code does not enforce the claimed invariant over
arbitrary construction sequences.  First scenario: a single construction
with `top_level := false` leaves the workspace with no top-level repository
at all.  Second scenario: a `top_level := true` construction followed by a
construction reusing the same repository name leaves the unique top-level
repository reachable under the empty id but no longer under its own id. -/
theorem C3_counterexample_not_always_one_top_level :
    (∃ w1, constructAll (workspaceInit "Linux" [] none)
        [⟨"repo_a", "proj_a", "/b", "/s", false⟩] = some w1 ∧
      ∀ p ∈ w1.repos, p.2.top_level = false) ∧
    (∃ w2, constructAll (workspaceInit "Linux" [] none)
        [⟨"a", "p1", "/b1", "/s1", true⟩, ⟨"a", "p2", "/b2", "/s2", false⟩] =
          some w2 ∧
      ∃ rt, dictGet w2.repos "" = some rt ∧ rt.top_level = true ∧
        ¬(dictGet w2.repos rt.repository_id = some rt)) := by
  constructor
  · exact ⟨_, rfl, by decide⟩
  · exact ⟨_, rfl, ⟨"a", "p1", "/b1", "/s1", [], true⟩, by decide, rfl,
      by decide⟩

/-- C3 (amended): for every workspace and every sequence of `Repository`
constructions with pairwise-distinct repository names of which exactly one
has `top_level = true`, exactly one registered `Repository` has
`top_level = true`, and it is reachable in the workspace's repository map
both under its own repository id and under the empty repository id. -/
theorem C3_amended_unique_top_level (system_name : String)
    (cmake_vars : List (String × String)) (save : Option String)
    (args : List RepoArgs) (w' : Workspace) (t : RepoArgs)
    (hnodup : (args.map fun a => a.bazel_repo_name).Nodup)
    (ht : t ∈ args) (htop : t.top_level = true)
    (huniq : ∀ a ∈ args, a.top_level = true → a = t)
    (hrun : constructAll (workspaceInit system_name cmake_vars save) args =
      some w') :
    ∃ r : Repository, r.top_level = true ∧
      dictGet w'.repos r.repository_id = some r ∧
      dictGet w'.repos "" = some r ∧
      ∀ key v, dictGet w'.repos key = some v → v.top_level = true → v = r := by
  refine ⟨mkRepository t, htop, ?_, ?_, ?_⟩
  · exact constructAll_lookup_own args t w' _ hrun hnodup ht
  · exact constructAll_lookup_empty args t w' _ hrun hnodup ht htop huniq
  · intro key v hv hvt
    have hmem := dictGet_mem _ _ _ hv
    rcases constructAll_repo_values args w' _ hrun (key, v) hmem with
      ⟨q, hq, _⟩ | ⟨a, haa, hpa⟩
    · cases hq
    · have hpa2 : v = mkRepository a := hpa
      have hat : a.top_level = true := by
        rw [hpa2] at hvt
        exact hvt
      rw [hpa2, huniq a haa hat]

/-- C3 witness: one top-level and one dependency construction yield exactly
one top-level repository, reachable under `"top"` and under `""`. -/
theorem C3_amended_unique_top_level_witness :
    ∃ w', constructAll (workspaceInit "Linux" [] none)
        [⟨"top", "pt", "/b", "/s", true⟩, ⟨"dep", "pd", "/b2", "/s2", false⟩] =
          some w' ∧
      ∃ r : Repository, r.top_level = true ∧
        dictGet w'.repos r.repository_id = some r ∧
        dictGet w'.repos "" = some r ∧
        ∀ key v, dictGet w'.repos key = some v → v.top_level = true → v = r := by
  refine ⟨_, rfl, ?_⟩
  exact C3_amended_unique_top_level "Linux" [] none
    [⟨"top", "pt", "/b", "/s", true⟩, ⟨"dep", "pd", "/b2", "/s2", false⟩] _
    ⟨"top", "pt", "/b", "/s", true⟩ (by decide)
    (List.mem_cons_self _ _) rfl (by decide) rfl

end BazelToCmake

